import Mathlib

/-!
Verification of the glyco-map repository's natural-language specification
against a shallow embedding of its Python sources.

Embedded modules:
* `CGMMetrics`  — `src/cgm_metrics/event_metrics.py` (window extraction and
  the five windowed metric calculators).
* `Answerability` — `src/cgm_questions/answerability.py` (selector matching,
  confound detection, group evaluation, reason generation).

Modelling conventions:
* Python floats are modelled as exact rationals (`ℚ`); all arithmetic in the
  source is plain `+ - * /` on floats, so the rational model computes the
  same field expressions exactly.
* `datetime` instants are modelled as rationals, measured in minutes; the
  source only ever adds `timedelta(minutes=…)` to instants, subtracts
  instants (converting to minutes), and compares them, all of which are
  affine operations faithfully represented on `ℚ`.
* Timestamp strings are modelled as a raw string together with the instant
  `datetime.fromisoformat` (with the trailing-Z fallback of
  `QuestionAnswerabilityEvaluator._parse_timestamp`) yields for it, if any
  (`TS`); parsing failure raises, modelled with `Except`.
* Fallible code (`raise`) is modelled with `Except String`.
-/

namespace CGMMetrics

/-- One CGM sample: `{"timestamp": …, "glucose_value": …, "quality_flags": …}`.
The timestamp is the parsed instant in minutes. -/
structure Sample where
  timestamp : ℚ
  glucose_value : ℚ
  quality_flags : List String
deriving DecidableEq, Inhabited

/-- A CGM series dict: `samples`, optional `sampling_interval_minutes`
(`cgm_data.get("sampling_interval_minutes", 5.0)` defaults to 5), `unit`. -/
structure CGMData where
  samples : List Sample
  sampling_interval_minutes : Option ℚ
  unit : String
deriving DecidableEq

/-- `cgm_data.get("sampling_interval_minutes", 5.0)` -/
def CGMData.interval (d : CGMData) : ℚ :=
  d.sampling_interval_minutes.getD 5

/-- A window definition dict (`relative_to`, `start_offset_minutes`,
`end_offset_minutes`). `relative_to` is carried but, as in the source,
never used by the extraction arithmetic. -/
structure Window where
  relative_to : String
  start_offset_minutes : ℚ
  end_offset_minutes : ℚ
deriving DecidableEq

/-- An event annotation as used by the metric calculators: `event_id` and the
parsed `start_time` instant (`datetime.fromisoformat(event["start_time"])`). -/
structure MEvent where
  event_id : String
  start_time : ℚ
deriving DecidableEq

/-- Python `int()` applied to a real number: truncation toward zero. -/
def pyint (q : ℚ) : ℤ :=
  if 0 ≤ q then ⌊q⌋ else ⌈q⌉

/-- `CGMEventMetrics._calculate_expected_samples`:
`max(int(window_duration / sampling_interval) + 1, 0)`. -/
def calculate_expected_samples (w : Window) (sampling_interval : ℚ) : ℤ :=
  max (pyint ((w.end_offset_minutes - w.start_offset_minutes) / sampling_interval) + 1) 0

/-- Quality flags computed by `_extract_window_samples`; the source returns
`list(set(quality_flags))`, modelled as a deduplicated list (no claim depends
on the set's iteration order). -/
def windowQualityFlags (coverage_ratio : ℚ) (window_samples : List Sample) : List String :=
  ((if coverage_ratio < 7/10 then ["low_coverage"] else []) ++
   (if coverage_ratio < 1 then ["missing_data"] else []) ++
   (if window_samples.any (fun s =>
        s.quality_flags.contains "artifact" || s.quality_flags.contains "sensor_error")
    then ["interpolated"] else [])).dedup

/-- `CGMEventMetrics._extract_window_samples`: samples with
`window_start ≤ t ≤ window_end`, the coverage ratio
(`min(len/expected, 1.0)`, `1.0` when `expected ≤ 0`), and quality flags. -/
def extract_window_samples (d : CGMData) (reference_time : ℚ) (w : Window) :
    List Sample × ℚ × List String :=
  let window_start := reference_time + w.start_offset_minutes
  let window_end := reference_time + w.end_offset_minutes
  let window_samples := d.samples.filter
    (fun s => window_start ≤ s.timestamp ∧ s.timestamp ≤ window_end)
  let expected_samples := calculate_expected_samples w d.interval
  let coverage_ratio :=
    if expected_samples > 0 then
      min ((window_samples.length : ℚ) / (expected_samples : ℚ)) 1
    else 1
  (window_samples, coverage_ratio, windowQualityFlags coverage_ratio window_samples)

/-- Mean of a list of rationals (`np.mean`). -/
def listMean (l : List ℚ) : ℚ :=
  l.sum / l.length

/-- Result of `calculate_baseline_glucose` (diagnostic fields that no claim
touches — `computed_at`, `method`, the rounded coverage percentage — are
omitted). -/
structure BaselineResult where
  event_id : String
  value : ℚ
  unit : String
  coverage_ratio : ℚ
  quality_flags : List String
  window_samples : ℕ
  expected_samples : ℤ
deriving DecidableEq

/-- `CGMEventMetrics.calculate_baseline_glucose`. -/
def calculate_baseline_glucose (d : CGMData) (e : MEvent) (w : Window) :
    Except String BaselineResult :=
  let (window_samples, coverage_ratio, quality_flags) :=
    extract_window_samples d e.start_time w
  if window_samples.length = 0 then
    .error ("No CGM data in baseline window for event " ++ e.event_id)
  else
    let baseline := listMean (window_samples.map (·.glucose_value))
    let expected := calculate_expected_samples w d.interval
    .ok {
      event_id := e.event_id
      value := baseline
      unit := d.unit
      coverage_ratio := coverage_ratio
      quality_flags := quality_flags
      window_samples := window_samples.length
      expected_samples := expected
    }

/-- Maximum of a nonempty list, with the head as the default for `[]`
(`np.max` raises on empty input; all call sites guard non-emptiness). -/
def listMax : List ℚ → ℚ
  | [] => 0
  | [x] => x
  | x :: y :: rest => max x (listMax (y :: rest))

/-- `np.argmax`: index of the first occurrence of the maximum value. -/
def argmax : List ℚ → ℕ
  | [] => 0
  | [_] => 0
  | x :: y :: rest =>
    let i := argmax (y :: rest)
    let m := listMax (y :: rest)
    if m > x then i + 1 else 0

/-- Result of `calculate_delta_peak` (fields relevant to the claims; the
union of quality flags, `computed_at`, `method` and rounded percentages are
diagnostic and omitted). -/
structure DeltaPeakResult where
  event_id : String
  value : ℚ
  coverage_ratio : ℚ
  peak_glucose : ℚ
  baseline_glucose : ℚ
  peak_time : ℚ
deriving DecidableEq

/-- `CGMEventMetrics.calculate_delta_peak`. -/
def calculate_delta_peak (d : CGMData) (e : MEvent)
    (baseline_window peak_window : Window) : Except String DeltaPeakResult := do
  let baseline_result ← calculate_baseline_glucose d e baseline_window
  let baseline := baseline_result.value
  let (peak_samples, peak_coverage, _) :=
    extract_window_samples d e.start_time peak_window
  if peak_samples.length = 0 then
    .error ("No CGM data in peak window for event " ++ e.event_id)
  else
    let peak_values := peak_samples.map (·.glucose_value)
    let peak_glucose := listMax peak_values
    let peak_time_index := argmax peak_values
    let peak_time := ((peak_samples.get? peak_time_index).getD default).timestamp
    .ok {
      event_id := e.event_id
      value := peak_glucose - baseline
      coverage_ratio := peak_coverage
      peak_glucose := peak_glucose
      baseline_glucose := baseline
      peak_time := peak_time
    }

/-- The trapezoid accumulation loop of `calculate_iAUC`: over consecutive
pairs of (time, clamped positive difference), add
`(pos_i + pos_{i+1}) / 2 * (t_{i+1} - t_i)`. -/
def trapSum : List (ℚ × ℚ) → ℚ
  | a :: b :: rest => (a.2 + b.2) / 2 * (b.1 - a.1) + trapSum (b :: rest)
  | _ => 0

/-- Result of `calculate_iAUC` (claim-relevant fields). -/
structure IAUCResult where
  event_id : String
  value : ℚ
  coverage_ratio : ℚ
  baseline_glucose : ℚ
  window_samples : ℕ
deriving DecidableEq

/-- `CGMEventMetrics.calculate_iAUC`. -/
def calculate_iAUC (d : CGMData) (e : MEvent)
    (baseline_window auc_window : Window) : Except String IAUCResult := do
  let baseline_result ← calculate_baseline_glucose d e baseline_window
  let baseline := baseline_result.value
  let (auc_samples, auc_coverage, _) :=
    extract_window_samples d e.start_time auc_window
  if auc_samples.length < 2 then
    .error ("Insufficient CGM data for iAUC calculation for event " ++ e.event_id)
  else
    let pts := auc_samples.map
      (fun s => (s.timestamp, max (s.glucose_value - baseline) 0))
    let auc := trapSum pts
    .ok {
      event_id := e.event_id
      value := auc
      coverage_ratio := auc_coverage
      baseline_glucose := baseline
      window_samples := auc_samples.length
    }

/-- Degree-1 least-squares fit (`np.polyfit(x, y, 1)`): returns
`(slope, intercept)`. On non-degenerate abscissae this is the ordinary
least-squares line; the guard value for degenerate input (all `x` equal, on
which `np.polyfit`'s normal equations are singular) is never reached by the
claims below. -/
def polyfit1 (xs ys : List ℚ) : ℚ × ℚ :=
  let n : ℚ := xs.length
  let xbar := xs.sum / n
  let ybar := ys.sum / n
  let sxx := ((xs.map (fun x => (x - xbar) * (x - xbar)))).sum
  let sxy := ((xs.zip ys).map (fun p => (p.1 - xbar) * (p.2 - ybar))).sum
  if sxx = 0 then (0, ybar)
  else
    let slope := sxy / sxx
    (slope, ybar - slope * xbar)

/-- Result of `calculate_recovery_slope` (claim-relevant fields of the
result and its `quality_summary`). -/
structure RecoverySlopeResult where
  event_id : String
  value : ℚ
  coverage_ratio : ℚ
  peak_glucose : ℚ
  recovery_start : ℚ
  recovery_end : ℚ
  return_toward_baseline_percentage : Option ℚ
deriving DecidableEq

/-- The `recovery_times_min` list of `calculate_recovery_slope`: recovery
window timestamps re-centred on `center_time`, the timestamp at index
`len // 2`. -/
def recoveryTimesMin (d : CGMData) (e : MEvent) (recovery_window : Window) : List ℚ :=
  let recovery_times := (extract_window_samples d e.start_time recovery_window).1.map (·.timestamp)
  let center_time := (recovery_times.get? (recovery_times.length / 2)).getD 0
  recovery_times.map (fun t => t - center_time)

/-- The `(slope, intercept)` pair `np.polyfit(recovery_times_min,
recovery_values, 1)` of `calculate_recovery_slope`. -/
def recoveryLine (d : CGMData) (e : MEvent) (recovery_window : Window) : ℚ × ℚ :=
  polyfit1 (recoveryTimesMin d e recovery_window)
    ((extract_window_samples d e.start_time recovery_window).1.map (·.glucose_value))

/-- `start_recovery_value = slope * recovery_times_min[0] + intercept`. -/
def recoveryStartValue (d : CGMData) (e : MEvent) (recovery_window : Window) : ℚ :=
  (recoveryLine d e recovery_window).1 * (((recoveryTimesMin d e recovery_window).get? 0).getD 0)
    + (recoveryLine d e recovery_window).2

/-- `end_recovery_value = slope * recovery_times_min[-1] + intercept`. -/
def recoveryEndValue (d : CGMData) (e : MEvent) (recovery_window : Window) : ℚ :=
  (recoveryLine d e recovery_window).1
      * (((recoveryTimesMin d e recovery_window).get?
          ((recoveryTimesMin d e recovery_window).length - 1)).getD 0)
    + (recoveryLine d e recovery_window).2

/-- `CGMEventMetrics.calculate_recovery_slope`. The source computes
`return_percentage` only `if start_recovery_value > 0`; with
`peak_value == start_recovery_value` the Python division raises
`ZeroDivisionError` — the claims below stay away from that point. -/
def calculate_recovery_slope (d : CGMData) (e : MEvent)
    (peak_window recovery_window : Window) : Except String RecoverySlopeResult :=
  if (extract_window_samples d e.start_time peak_window).1.length = 0 then
    .error ("No CGM data in peak window for event " ++ e.event_id)
  else if (extract_window_samples d e.start_time recovery_window).1.length < 2 then
    .error ("Insufficient data in recovery window for event " ++ e.event_id)
  else
    let peak_value :=
      listMax ((extract_window_samples d e.start_time peak_window).1.map (·.glucose_value))
    let start_recovery_value := recoveryStartValue d e recovery_window
    let end_recovery_value := recoveryEndValue d e recovery_window
    let return_percentage : Option ℚ :=
      if start_recovery_value > 0 then
        some ((peak_value - end_recovery_value) / (peak_value - start_recovery_value) * 100)
      else none
    .ok {
      event_id := e.event_id
      value := (recoveryLine d e recovery_window).1
      coverage_ratio := ((extract_window_samples d e.start_time peak_window).2.1
        + (extract_window_samples d e.start_time recovery_window).2.1) / 2
      peak_glucose := peak_value
      recovery_start := start_recovery_value
      recovery_end := end_recovery_value
      return_toward_baseline_percentage := return_percentage
    }

/-- The default baseline window `[-30, 0]` relative to event start. -/
def defaultBaselineWindow : Window :=
  { relative_to := "event_start", start_offset_minutes := -30, end_offset_minutes := 0 }

/-- The default peak / AUC window `[0, 180]` relative to event start. -/
def defaultPeakWindow : Window :=
  { relative_to := "event_start", start_offset_minutes := 0, end_offset_minutes := 180 }

/-- The default recovery window `[120, 240]` relative to event start. -/
def defaultRecoveryWindow : Window :=
  { relative_to := "event_start", start_offset_minutes := 120, end_offset_minutes := 240 }

/-- Following the spec's words for C1 (not the source): expected sample
count `floor(window_duration / sampling_interval) + 1`, floored at 0. -/
def specExpectedSamples (w : Window) (sampling_interval : ℚ) : ℤ :=
  max (⌊(w.end_offset_minutes - w.start_offset_minutes) / sampling_interval⌋ + 1) 0

/-- Following the spec's words for C1 (not the source):
`coverage_ratio = min(actual/expected, 1.0)` with the floor-based expected
count, defaulting to 1.0 when the expected count is 0. -/
def specCoverageRatio (d : CGMData) (reference_time : ℚ) (w : Window) : ℚ :=
  let actual := ((extract_window_samples d reference_time w).1.length : ℚ)
  let expected := specExpectedSamples w d.interval
  if expected = 0 then 1 else min (actual / (expected : ℚ)) 1

end CGMMetrics

namespace Answerability

/-- Python `str.lower()` (code-point lowering; the strings this evaluator
compares are ASCII, on which CPython's and this lowering agree). -/
def toLowerStr (s : String) : String :=
  ⟨s.data.map Char.toLower⟩

/-- Drop leading and trailing whitespace from a character list. -/
def trimChars (l : List Char) : List Char :=
  ((l.dropWhile Char.isWhitespace).reverse.dropWhile Char.isWhitespace).reverse

/-- Python `str.strip()`. -/
def trimStr (s : String) : String :=
  ⟨trimChars s.data⟩

/-- Code-point lexicographic `<` on character lists (CPython string
comparison). -/
def charListLt : List Char → List Char → Bool
  | [], [] => false
  | [], _ :: _ => true
  | _ :: _, [] => false
  | a :: as, b :: bs => a.val < b.val || (a == b && charListLt as bs)

/-- Python string `<`. -/
def strLtB (a b : String) : Bool :=
  charListLt a.data b.data

/-- Python string `<=`. -/
def strLe (a b : String) : Bool :=
  a == b || strLtB a b

/-- Split a character list on a separator character (Python
`str.split(sep)`). -/
def splitChars (c : Char) : List Char → List (List Char)
  | [] => [[]]
  | x :: xs =>
    let r := splitChars c xs
    if x = c then [] :: r
    else
      match r with
      | h :: t => (x :: h) :: t
      | [] => [[x]]

/-- Python `s.split(":")`-style split into strings. -/
def splitOnChar (c : Char) (s : String) : List String :=
  (splitChars c s.data).map (fun l => ⟨l⟩)

/-- The numeric value of a nonempty all-digit character list. -/
def digitsVal (ds : List Char) : Option ℕ :=
  if ds = [] then none
  else if ds.all Char.isDigit then
    some (ds.foldl (fun n c => n * 10 + (c.toNat - Char.toNat '0')) 0)
  else none

/-- Python `int(str)`: surrounding whitespace stripped, optional sign, then
decimal digits; anything else raises (modelled as `none`). (CPython also
accepts underscore digit separators, which never occur in this repo's
data.) -/
def strToInt? (s : String) : Option ℤ :=
  match trimChars s.data with
  | '-' :: ds => (digitsVal ds).map (fun n => -(n : ℤ))
  | '+' :: ds => (digitsVal ds).map (fun n => (n : ℤ))
  | ds => (digitsVal ds).map (fun n => (n : ℤ))

/-- A dynamic Python value as it occurs in selectors, conditions and
exposure components: a string, a number (int/float unified as `ℚ`), a list,
or `None`. -/
inductive PyVal where
  | vstr (s : String)
  | vnum (q : ℚ)
  | vlist (vs : List PyVal)
  | vnone

mutual
/-- Python `==` on dynamic values (structural; `False` across types). -/
def PyVal.beq : PyVal → PyVal → Bool
  | .vstr a, .vstr b => a == b
  | .vnum a, .vnum b => a == b
  | .vlist a, .vlist b => PyVal.beqList a b
  | .vnone, .vnone => true
  | _, _ => false

/-- Python `==` on lists of dynamic values. -/
def PyVal.beqList : List PyVal → List PyVal → Bool
  | [], [] => true
  | x :: xs, y :: ys => PyVal.beq x y && PyVal.beqList xs ys
  | _, _ => false
end

instance : BEq PyVal := ⟨PyVal.beq⟩

/-- A timestamp string: the raw text together with the instant that
`QuestionAnswerabilityEvaluator._parse_timestamp` (i.e.
`datetime.fromisoformat`, retried with `Z` replaced by `+00:00`) produces
for it, or `none` when parsing raises. -/
structure TS where
  raw : String
  parsed : Option ℚ
deriving DecidableEq

/-- `QuestionAnswerabilityEvaluator._parse_timestamp`: yields the parsed
instant or raises `ValueError`. -/
def parseTimestamp (t : TS) : Except String ℚ :=
  match t.parsed with
  | some q => .ok q
  | none => .error "ValueError: unparsable timestamp"

/-- One entry of an event's `exposure_components` list. -/
structure ExposureComponent where
  name : String
  value : PyVal
  unit : Option String

/-- An event record as consumed by the evaluator. `context_tags` models the
result of splitting the text after the `"Context tags:"` marker of
`event["notes"]` on commas and stripping each piece
(`_extract_context_tags` additionally lowercases, applied below);
`ann_quality` is the source's `annotation_quality` field. -/
structure Event where
  event_id : String
  event_type : Option String
  start_time : TS
  end_time : Option TS
  label : Option String
  source : Option String
  ann_quality : Option String
  context_tags : List String
  exposure_components : List ExposureComponent

/-- `QuestionAnswerabilityEvaluator._extract_context_tags` (the split on the
`"Context tags:"` marker is abstracted into `Event.context_tags`; the
lowercasing the source applies to each tag happens here). -/
def extractContextTags (e : Event) : List String :=
  e.context_tags.map (fun t => toLowerStr t)

/-- `QuestionAnswerabilityEvaluator._equals`: case-insensitive trimmed
comparison for strings, any-element match when the candidate is a list,
plain (type-sensitive) equality otherwise. -/
def pyEquals : PyVal → PyVal → Bool
  | .vstr a, .vstr b => toLowerStr (trimStr a) == toLowerStr (trimStr b)
  | .vlist items, v => anyEquals items v
  | a, b => a == b
where
  /-- `any(self._equals(item, value) for item in candidate)` -/
  anyEquals : List PyVal → PyVal → Bool
  | [], _ => false
  | x :: xs, v => pyEquals x v || anyEquals xs v

mutual
/-- Python `<` on dynamic values: numbers and strings compare; lists compare
lexicographically; any other combination raises `TypeError`. -/
def pyLt : PyVal → PyVal → Except String Bool
  | .vnum a, .vnum b => .ok (decide (a < b))
  | .vstr a, .vstr b => .ok (strLtB a b)
  | .vlist xs, .vlist ys => listLt xs ys
  | _, _ => .error "TypeError: unorderable types"

/-- Lexicographic `<` on Python lists (element equality first, then `<`). -/
def listLt : List PyVal → List PyVal → Except String Bool
  | [], [] => .ok false
  | [], _ :: _ => .ok true
  | _ :: _, [] => .ok false
  | x :: xs, y :: ys => if x == y then listLt xs ys else pyLt x y
end

mutual
/-- Python `<=` on dynamic values. -/
def pyLe : PyVal → PyVal → Except String Bool
  | .vnum a, .vnum b => .ok (decide (a ≤ b))
  | .vstr a, .vstr b => .ok (strLe a b)
  | .vlist xs, .vlist ys => listLe xs ys
  | _, _ => .error "TypeError: unorderable types"

/-- Lexicographic `<=` on Python lists. -/
def listLe : List PyVal → List PyVal → Except String Bool
  | [], _ => .ok true
  | _ :: _, [] => .ok false
  | x :: xs, y :: ys => if x == y then listLe xs ys else pyLt x y
end

/-- `QuestionAnswerabilityEvaluator._time_value`: an `"HH:MM[...]"` string
becomes minutes (`int(parts[0]) * 60 + int(parts[1])`, raising when the
parts are not integers); everything else passes through. -/
def timeValue : PyVal → Except String PyVal
  | .vstr s =>
    if s.data.contains ':' then
      let parts := splitOnChar ':' s
      if parts.length ≥ 2 then
        match strToInt? (parts.getD 0 ""), strToInt? (parts.getD 1 "") with
        | some h, some m => .ok (.vnum (h * 60 + m))
        | _, _ => .error "ValueError: invalid literal for int()"
      else .ok (.vstr s)
    else .ok (.vstr s)
  | v => .ok v

/-- `QuestionAnswerabilityEvaluator._normalize_time_value`. -/
def normalizeTimeValue : PyVal → Except String PyVal
  | .vlist items => do
    let converted ← items.mapM timeValue
    .ok (.vlist converted)
  | v => timeValue v

/-- `QuestionAnswerabilityEvaluator._between`: numeric three-way check with
wrap-around when `lower > upper`; `False` for non-numeric operands. -/
def pyBetween (candidate lower upper : PyVal) : Bool :=
  match candidate, lower, upper with
  | .vnum c, .vnum l, .vnum u =>
    if l ≤ u then decide (l ≤ c ∧ c ≤ u) else decide (c ≥ l ∨ c ≤ u)
  | _, _, _ => false

/-- `QuestionAnswerabilityEvaluator._compare`. A missing `"value"` key is
the Python value `None` (`vnone`). -/
def pyCompare (operator : Option String) (candidate value : PyVal) :
    Except String Bool :=
  match operator with
  | none => .ok false
  | some op =>
    if op = "=" then .ok (pyEquals candidate value)
    else if op = "<" then pyLt candidate value
    else if op = ">" then pyLt value candidate
    else if op = "<=" then pyLe candidate value
    else if op = ">=" then pyLe value candidate
    else if op = "between" then
      match value with
      | .vlist [lo, hi] => do
        let lower ← timeValue lo
        let upper ← timeValue hi
        let candidate_value ← timeValue candidate
        .ok (pyBetween candidate_value lower upper)
      | _ => .ok false
    else if op = "in" then
      match value with
      | .vlist options =>
        .ok (match candidate with
          | .vlist items => items.any (fun item => options.any (fun o => pyEquals item o))
          | c => options.any (fun o => pyEquals c o))
      | _ => .ok false
    else if op = "exists" then .ok (candidate != .vnone)
    else .ok false

/-- A selector dict (`definition.get("selector", {})` entries). -/
structure Selector where
  component : Option String
  operator : Option String
  value : PyVal
  unit : Option String

/-- The all-defaults selector standing for the empty dict `{}`. -/
def emptySelector : Selector :=
  { component := none, operator := none, value := .vnone, unit := none }

/-- A condition dict from `question.get("condition", [])`; `name` defaults
to `""` (`condition.get("name", "")`). -/
structure Condition where
  name : String
  operator : Option String
  value : PyVal
  unit : Option String

/-- An exposure/comparison definition: `event_type` plus a selector. -/
structure EventDef where
  event_type : Option String
  selector : Option Selector

/-- A window spec dict as compared by `_metric_window_matches`; each field
is `dict.get`-accessed, hence optional. A metric whose `window` is the
baseline/peak pair dict has no `relative_to` key, modelled by `none`. -/
structure WindowSpec where
  relative_to : Option String
  start_offset_minutes : Option ℚ
  end_offset_minutes : Option ℚ
deriving DecidableEq

/-- The question's `time_span` dict. -/
structure TimeSpan where
  start_time : TS
  end_time : TS
deriving DecidableEq

/-- The question's `outcome` dict. -/
structure Outcome where
  metric_name : String
  window : Option WindowSpec

/-- A question document (fields read by `evaluate`). -/
structure Question where
  question_id : Option String
  subject_id : Option String
  time_zone : Option String
  outcome : Outcome
  exposure : EventDef
  comparison : EventDef
  condition : List Condition
  time_span : Option TimeSpan

/-- An events document (`{"subject_id": …, "events": [...]}`; the source
also accepts a bare list, which carries no `subject_id`). -/
structure EventsDoc where
  subject_id : Option String
  events : List Event

/-- A metric record as read by the evaluator: `event_id` (skipped when
falsy), `metric_name`, `window`, `coverage_ratio` when the key is present,
and `quality_summary.coverage_percentage` as fallback. -/
structure Metric where
  event_id : Option String
  metric_name : Option String
  window : Option WindowSpec
  coverage_ratio : Option ℚ
  qs_coverage_percentage : Option ℚ
deriving DecidableEq

/-- A metrics document. -/
structure MetricsDoc where
  subject_id : Option String
  metrics : List Metric
deriving DecidableEq

/-- Evaluator configuration (constructor defaults of
`QuestionAnswerabilityEvaluator.__init__`). -/
structure Config where
  min_events_per_group : ℕ := 2
  min_metric_coverage : ℚ := 7/10
  min_isolation_minutes : ℚ := 30
  default_event_duration_minutes : ℚ := 30
deriving DecidableEq

/-- The default evaluator configuration. -/
def defaultConfig : Config := {}

/-- Truthiness of an optional string (`if s and …`): present and non-empty. -/
def truthy : Option String → Bool
  | none => false
  | some s => s ≠ ""

/-- `QuestionAnswerabilityEvaluator._parse_event_times`: parsed start, and
parsed end when the `end_time` key is present, else
`start + default_event_duration_minutes`. -/
def parseEventTimes (cfg : Config) (e : Event) : Except String (ℚ × ℚ) := do
  let start ← parseTimestamp e.start_time
  match e.end_time with
  | some ts => do
    let endt ← parseTimestamp ts
    .ok (start, endt)
  | none => .ok (start, start + cfg.default_event_duration_minutes)

/-- `QuestionAnswerabilityEvaluator._parse_time_span`. -/
def parseTimeSpan (time_span : Option TimeSpan) :
    Except String (Option ℚ × Option ℚ) :=
  match time_span with
  | none => .ok (none, none)
  | some sp => do
    let s ← parseTimestamp sp.start_time
    let e ← parseTimestamp sp.end_time
    .ok (some s, some e)

/-- `QuestionAnswerabilityEvaluator._event_in_span`. -/
def eventInSpan (cfg : Config) (e : Event) (span_start span_end : Option ℚ) :
    Except String Bool :=
  match span_start, span_end with
  | some ss, some se => do
    let (event_start, _) ← parseEventTimes cfg e
    .ok (decide (ss ≤ event_start ∧ event_start ≤ se))
  | _, _ => .ok true

/-- `QuestionAnswerabilityEvaluator._resolve_component`: the component's
value and unit for an event. -/
def resolveComponent (e : Event) (component : String) : PyVal × Option String :=
  let cl := toLowerStr component
  if cl = "label" ∨ cl = "food_name" then
    (match e.label with | some s => .vstr s | none => .vnone, none)
  else if cl = "event_type" then
    (match e.event_type with | some s => .vstr s | none => .vnone, none)
  else if cl = "source" then
    (match e.source with | some s => .vstr s | none => .vnone, none)
  else if cl = "annotation_quality" then
    (match e.ann_quality with | some s => .vstr s | none => .vnone, none)
  else if cl = "start_time" then
    (.vstr e.start_time.raw, some "datetime")
  else if cl = "end_time" then
    (match e.end_time with | some ts => .vstr ts.raw | none => .vnone, some "datetime")
  else if cl = "context_tag" ∨ cl = "context" ∨ cl = "context_tags" then
    (.vlist ((extractContextTags e).map .vstr), none)
  else
    match e.exposure_components.find? (fun c => c.name = component) with
    | some c => (c.value, c.unit)
    | none => (.vnone, none)

/-- `QuestionAnswerabilityEvaluator._match_selector`. -/
def matchSelector (e : Event) (sel : Option Selector) : Except String Bool :=
  let s := sel.getD emptySelector
  match s.component with
  | none => .ok false
  | some component =>
    if component = "" then .ok false
    else if s.operator = some "exists" then
      let (v, _) := resolveComponent e component
      .ok (v != .vnone)
    else
      let (v, unit) := resolveComponent e component
      if v == PyVal.vnone then .ok false
      else if truthy s.unit && truthy unit && s.unit ≠ unit then .ok false
      else pyCompare s.operator v s.value

/-- `QuestionAnswerabilityEvaluator._matches_event_definition`. -/
def matchesEventDefinition (e : Event) (definition : EventDef) :
    Except String Bool :=
  if e.event_type ≠ definition.event_type then .ok false
  else matchSelector e definition.selector

/-- Minutes-of-day of an instant (`start.timetz()` then
`hour * 60 + minute`); instants are minutes since midnight of the epoch
day, so this is the floored instant modulo one day. -/
def timeOfDayMinutes (t : ℚ) : ℚ :=
  ((⌊t⌋ % (1440 : ℤ) : ℤ) : ℚ)

/-- `QuestionAnswerabilityEvaluator._match_condition`. -/
def matchCondition (cfg : Config) (e : Event) (c : Condition)
    (_time_zone : Option String) : Except String Bool :=
  if c.name = "context_tag" ∨ c.name = "context" ∨ c.name = "context_tags" then
    pyCompare c.operator (.vlist ((extractContextTags e).map .vstr)) c.value
  else if c.name = "time_of_day" then do
    let (event_start, _) ← parseEventTimes cfg e
    let event_minutes := timeOfDayMinutes event_start
    let normalized_value ← normalizeTimeValue c.value
    pyCompare c.operator (.vnum event_minutes) normalized_value
  else
    let (v, unit) := resolveComponent e c.name
    if v == PyVal.vnone then .ok false
    else if truthy c.unit && truthy unit && c.unit ≠ unit then .ok false
    else pyCompare c.operator v c.value

/-- `QuestionAnswerabilityEvaluator._matches_conditions` (short-circuiting
conjunction, in list order, like the source's loop). -/
def matchesConditions (cfg : Config) (e : Event) :
    List Condition → Option String → Except String Bool
  | [], _ => .ok true
  | c :: rest, tz => do
    let b ← matchCondition cfg e c tz
    if b then matchesConditions cfg e rest tz else .ok false

/-- Insert into / overwrite an association list keyed by event id, with
Python-dict semantics: an existing key keeps its position and gets the new
value, a new key is appended (insertion order). -/
def upsert (l : List (String × ℚ × ℚ)) (k : String) (v : ℚ × ℚ) :
    List (String × ℚ × ℚ) :=
  if l.any (fun p => p.1 = k) then l.map (fun p => if p.1 = k then (k, v) else p)
  else l ++ [(k, v)]

/-- The `event_times` dict of `_find_confounded_events`, in insertion
order. -/
def buildEventTimes (cfg : Config) :
    List Event → List (String × ℚ × ℚ) → Except String (List (String × ℚ × ℚ))
  | [], acc => .ok acc
  | e :: rest, acc => do
    let t ← parseEventTimes cfg e
    buildEventTimes cfg rest (upsert acc e.event_id t)

/-- The pairwise test of `_find_confounded_events`: the other event's raw
`[start, end]` interval meets this event's isolation-expanded window
(`other_start ≤ window_end and other_end ≥ window_start`). -/
def pairIntersects (iso : ℚ) (self other : ℚ × ℚ) : Bool :=
  decide (other.1 ≤ self.2 + iso ∧ other.2 ≥ self.1 - iso)

/-- Insert a string into a `≤`-sorted list of strings. -/
def insertSorted (s : String) : List String → List String
  | [] => [s]
  | x :: xs => if strLe s x then s :: x :: xs else x :: insertSorted s xs

/-- Python `sorted` on a collection of strings (code-point lexicographic). -/
def sortStrings (l : List String) : List String :=
  l.foldr insertSorted []

/-- `QuestionAnswerabilityEvaluator._find_confounded_events`. -/
def findConfoundedEvents (cfg : Config) (events : List Event) (iso : ℚ) :
    Except String (List String) := do
  let entries ← buildEventTimes cfg events []
  .ok (sortStrings ((entries.filter (fun p =>
    entries.any (fun o => (o.1 != p.1) && pairIntersects iso p.2 o.2))).map (·.1)))

/-- Append a metric under its event id (`index.setdefault(id, []).append`). -/
def insertMetric (idx : List (String × List Metric)) (eid : String) (m : Metric) :
    List (String × List Metric) :=
  if idx.any (fun p => p.1 = eid) then
    idx.map (fun p => if p.1 = eid then (p.1, p.2 ++ [m]) else p)
  else idx ++ [(eid, [m])]

/-- `QuestionAnswerabilityEvaluator._index_metrics` (metrics with a falsy
`event_id` are skipped). -/
def indexMetrics (metrics : List Metric) : List (String × List Metric) :=
  metrics.foldl (fun idx m =>
    match m.event_id with
    | some eid => if eid = "" then idx else insertMetric idx eid m
    | none => idx) []

/-- Lookup in the metrics index (`metrics_index.get(event_id, [])`). -/
def lookupMetrics (idx : List (String × List Metric)) (eid : String) :
    List Metric :=
  match idx.find? (fun p => p.1 = eid) with
  | some p => p.2
  | none => []

/-- `QuestionAnswerabilityEvaluator._metric_window_matches` (the
`"relative_to" in metric_window` key-presence test is modelled as the field
being present). -/
def metricWindowMatches (mw : Option WindowSpec) (qw : WindowSpec) : Bool :=
  match mw with
  | none => false
  | some m =>
    m.relative_to.isSome && m.relative_to == qw.relative_to
      && m.start_offset_minutes == qw.start_offset_minutes
      && m.end_offset_minutes == qw.end_offset_minutes

/-- `QuestionAnswerabilityEvaluator._select_metric` (`metrics[0]` is only
reached by call sites that already checked non-emptiness). -/
def selectMetric (metrics : List Metric) (qw : Option WindowSpec) :
    Option Metric :=
  match qw with
  | none => metrics.head?
  | some w => metrics.find? (fun m => metricWindowMatches m.window w)

/-- `QuestionAnswerabilityEvaluator._metric_coverage`. -/
def metricCoverage (m : Metric) : ℚ :=
  match m.coverage_ratio with
  | some c => c
  | none =>
    match m.qs_coverage_percentage with
    | none => 1
    | some p => p / 100

/-- The bucket the `_evaluate_group` loop assigns an event to. -/
inductive Classification where
  | confounded
  | missing
  | mismatch
  | lowq
  | usable
deriving DecidableEq

/-- The per-event decision chain of the `_evaluate_group` loop. -/
def classifyEvent (cfg : Config) (metrics_index : List (String × List Metric))
    (q : Question) (confounded_ids : List String) (e : Event) : Classification :=
  if e.event_id ∈ confounded_ids then .confounded
  else
    let ms := (lookupMetrics metrics_index e.event_id).filter
      (fun m => m.metric_name == some q.outcome.metric_name)
    if ms.isEmpty then .missing
    else
      match selectMetric ms q.outcome.window with
      | none => .mismatch
      | some m =>
        if metricCoverage m < cfg.min_metric_coverage then .lowq else .usable

/-- The four append-accumulated id lists of the `_evaluate_group` loop
(missing, low-quality, window-mismatch, usable), in event order. -/
def classifyBuckets (cfg : Config) (metrics_index : List (String × List Metric))
    (q : Question) (confounded_ids : List String) :
    List Event → List String × List String × List String × List String
  | [] => ([], [], [], [])
  | e :: rest =>
    let (missing, lowq, mism, usable) :=
      classifyBuckets cfg metrics_index q confounded_ids rest
    match classifyEvent cfg metrics_index q confounded_ids e with
    | .confounded => (missing, lowq, mism, usable)
    | .missing => (e.event_id :: missing, lowq, mism, usable)
    | .mismatch => (missing, lowq, e.event_id :: mism, usable)
    | .lowq => (missing, e.event_id :: lowq, mism, usable)
    | .usable => (missing, lowq, mism, e.event_id :: usable)

/-- The per-group `match_stats` record returned by `_evaluate_group`. -/
structure GroupStats where
  metric_name : String
  matched_event_ids : List String
  usable_event_ids : List String
  confounded_event_ids : List String
  missing_metric_event_ids : List String
  low_quality_metric_event_ids : List String
  window_mismatch_event_ids : List String
deriving DecidableEq

/-- `QuestionAnswerabilityEvaluator._evaluate_group`. -/
def evaluateGroup (cfg : Config) (events : List Event)
    (metrics_index : List (String × List Metric)) (q : Question)
    (confounded_ids : List String) : GroupStats :=
  let matched := events.map (·.event_id)
  let (missing, lowq, mism, usable) :=
    classifyBuckets cfg metrics_index q confounded_ids events
  { metric_name := q.outcome.metric_name
    matched_event_ids := matched
    usable_event_ids := usable
    confounded_event_ids := matched.filter (fun i => i ∈ confounded_ids)
    missing_metric_event_ids := missing
    low_quality_metric_event_ids := lowq
    window_mismatch_event_ids := mism }

/-- A structured `Reason` record. -/
structure Reason where
  code : String
  detail : String
  blocking : Bool
  affected_event_ids : Option (List String)
  observed : Option ℕ
  required : Option ℕ
deriving DecidableEq

/-- `QuestionAnswerabilityEvaluator._reason` without keyword extras. -/
def mkReason (code detail : String) (blocking : Bool) : Reason :=
  { code := code, detail := detail, blocking := blocking,
    affected_event_ids := none, observed := none, required := none }

/-- `QuestionAnswerabilityEvaluator._group_reasons`. (`str.capitalize` also
lowercases the tail in Python; on the lowercase group names used here the
two agree.) -/
def groupReasons (cfg : Config) (group_name : String) (stats : GroupStats) :
    List Reason :=
  let usable := stats.usable_event_ids
  let under := usable.length < cfg.min_events_per_group
  if stats.matched_event_ids = [] then
    [mkReason ("no_matching_" ++ group_name ++ "_events")
      ("No events match the " ++ group_name ++ " selector within the time span.")
      true]
  else
    (if stats.confounded_event_ids ≠ [] then
      [{ mkReason "confounded_context"
          (group_name.capitalize ++ " events are too close to other events.")
          under with affected_event_ids := some stats.confounded_event_ids }]
     else []) ++
    (if stats.window_mismatch_event_ids ≠ [] then
      [{ mkReason "metric_window_mismatch"
          ("Metrics for " ++ group_name ++ " events do not match the requested window.")
          under with affected_event_ids := some stats.window_mismatch_event_ids }]
     else []) ++
    (if stats.missing_metric_event_ids ≠ [] then
      [{ mkReason
          (if stats.metric_name = "baseline_glucose" then "missing_baseline"
           else "missing_metric")
          ("Missing metric for " ++ group_name ++ " events.")
          under with affected_event_ids := some stats.missing_metric_event_ids }]
     else []) ++
    (if stats.low_quality_metric_event_ids ≠ [] then
      [{ mkReason "low_metric_coverage"
          ("Low metric coverage for " ++ group_name ++ " events.")
          under with affected_event_ids := some stats.low_quality_metric_event_ids }]
     else []) ++
    (if under then
      [{ mkReason ("insufficient_repeats_" ++ group_name)
          ("Need at least " ++ toString cfg.min_events_per_group ++ " usable "
            ++ group_name ++ " events, found " ++ toString usable.length ++ ".")
          true with observed := some usable.length,
                    required := some cfg.min_events_per_group }]
     else [])

/-- A data-requirement record (`"type"` is `rtype` here). -/
structure DataRequirement where
  rtype : String
  group : Option String
  needed_count : Option ℕ
  detail : String
  event_ids : Option (List String)
  req_selector : Option (Option Selector)

/-- `QuestionAnswerabilityEvaluator._group_data_requirements`. -/
def groupDataRequirements (cfg : Config) (group_name : String)
    (stats : GroupStats) (definition : EventDef) : List DataRequirement :=
  let usable := stats.usable_event_ids
  let missing_count := cfg.min_events_per_group - usable.length
  if stats.matched_event_ids = [] then
    [{ rtype := "collect_events", group := some group_name,
       needed_count := some cfg.min_events_per_group,
       detail := "Add events that match the " ++ group_name ++ " selector.",
       event_ids := none, req_selector := some definition.selector }]
  else
    (if missing_count > 0 then
      [{ rtype := "collect_events", group := some group_name,
         needed_count := some missing_count,
         detail := "Collect at least " ++ toString missing_count
           ++ " more usable " ++ group_name ++ " events.",
         event_ids := none, req_selector := some definition.selector }]
     else []) ++
    (if stats.missing_metric_event_ids ≠ [] then
      [{ rtype := "compute_metrics", group := some group_name,
         needed_count := none,
         detail := "Compute outcome metrics for events missing metrics or improve CGM coverage.",
         event_ids := some stats.missing_metric_event_ids, req_selector := none }]
     else []) ++
    (if stats.low_quality_metric_event_ids ≠ [] then
      [{ rtype := "improve_cgm_coverage", group := some group_name,
         needed_count := none,
         detail := "Increase CGM coverage in the outcome window for low-coverage events.",
         event_ids := some stats.low_quality_metric_event_ids, req_selector := none }]
     else []) ++
    (if stats.window_mismatch_event_ids ≠ [] then
      [{ rtype := "recompute_metrics", group := some group_name,
         needed_count := none,
         detail := "Recompute metrics using the question's outcome window.",
         event_ids := some stats.window_mismatch_event_ids, req_selector := none }]
     else []) ++
    (if stats.confounded_event_ids ≠ [] then
      [{ rtype := "collect_isolated_events", group := some group_name,
         needed_count := none,
         detail := "Add " ++ group_name ++ " events isolated by at least "
           ++ toString cfg.min_isolation_minutes ++ " minutes.",
         event_ids := some stats.confounded_event_ids, req_selector := none }]
     else [])

/-- Monadic filter over `Except`, evaluating predicates left to right like a
Python list comprehension (the first raising element aborts). -/
def filterExcept (f : α → Except String Bool) : List α → Except String (List α)
  | [] => .ok []
  | x :: xs => do
    let b ← f x
    let rest ← filterExcept f xs
    .ok (if b then x :: rest else rest)

/-- The exposure-match test of `evaluate`'s list comprehension:
`_matches_event_definition(event, exposure_def) and
_matches_conditions(event, conditions, time_zone)` (short-circuit). -/
def exposureFilter (cfg : Config) (q : Question) (e : Event) :
    Except String Bool := do
  let b ← matchesEventDefinition e q.exposure
  if b then matchesConditions cfg e q.condition q.time_zone else .ok false

/-- The comparison-match test of `evaluate`'s list comprehension. -/
def comparisonFilter (cfg : Config) (q : Question) (e : Event) :
    Except String Bool := do
  let b ← matchesEventDefinition e q.comparison
  if b then matchesConditions cfg e q.condition q.time_zone else .ok false

/-- The result of `evaluate` (the `summary` echo of inputs and
configuration is omitted; `match_stats` is flattened into the last four
fields). -/
structure AnswerabilityResult where
  evaluation_version : String
  question_id : String
  subject_id : Option String
  answerable : Bool
  reasons : List Reason
  data_requirements : List DataRequirement
  exposure_stats : GroupStats
  comparison_stats : GroupStats
  confounded_event_ids : List String
  overlap_event_ids : List String

/-- The `subject_id_mismatch` reasons appended at the start of `evaluate`. -/
def subjectMismatchReasons (q : Question) (events_subject metrics_subject : Option String) :
    List Reason :=
  (if truthy events_subject && truthy q.subject_id
      && events_subject ≠ q.subject_id then
    [mkReason "subject_id_mismatch"
      ("Events subject_id " ++ (events_subject.getD "")
        ++ " does not match question subject_id " ++ (q.subject_id.getD "") ++ ".")
      true]
   else []) ++
  (if truthy metrics_subject && truthy q.subject_id
      && metrics_subject ≠ q.subject_id then
    [mkReason "subject_id_mismatch"
      ("Metrics subject_id " ++ (metrics_subject.getD "")
        ++ " does not match question subject_id " ++ (q.subject_id.getD "") ++ ".")
      true]
   else [])

/-- `sorted(set(exposure_ids) & set(comparison_ids))` of `evaluate`. -/
def overlapIdsOf (exposure_matches comparison_matches : List Event) : List String :=
  sortStrings (((exposure_matches.map (·.event_id)).filter
    (fun i => i ∈ comparison_matches.map (·.event_id))).dedup)

/-- The `ambiguous_event_definition` reason of `evaluate`, when the groups
overlap. -/
def overlapReasonsOf (exposure_matches comparison_matches : List Event) : List Reason :=
  if overlapIdsOf exposure_matches comparison_matches ≠ [] then
    [{ mkReason "ambiguous_event_definition"
        "Exposure and comparison selectors match the same events." true
        with affected_event_ids := some (overlapIdsOf exposure_matches comparison_matches) }]
  else []

/-- The pure assembly tail of `QuestionAnswerabilityEvaluator.evaluate`:
given the question, documents, and the fallible intermediates (matched
groups and confounded ids), build the result record. -/
def assembleResult (cfg : Config) (q : Question) (events_data : EventsDoc)
    (metrics_data : MetricsDoc) (exposure_matches comparison_matches : List Event)
    (confounded_ids : List String) : AnswerabilityResult :=
  let metrics_index := indexMetrics metrics_data.metrics
  let subject_id := q.subject_id
  let question_id := q.question_id.getD "unknown"
  let subjectReasons := subjectMismatchReasons q events_data.subject_id metrics_data.subject_id
  let overlap_ids := overlapIdsOf exposure_matches comparison_matches
  let overlapReasons := overlapReasonsOf exposure_matches comparison_matches
  let exposure_stats := evaluateGroup cfg exposure_matches metrics_index q confounded_ids
  let comparison_stats := evaluateGroup cfg comparison_matches metrics_index q confounded_ids
  let reasons := subjectReasons ++ overlapReasons
    ++ groupReasons cfg "exposure" exposure_stats
    ++ groupReasons cfg "comparison" comparison_stats
  let data_requirements :=
    groupDataRequirements cfg "exposure" exposure_stats q.exposure
    ++ groupDataRequirements cfg "comparison" comparison_stats q.comparison
    ++ (if overlap_ids ≠ [] then
        [{ rtype := "refine_definitions", group := none, needed_count := none,
           detail := "Refine exposure/comparison selectors to avoid overlapping events.",
           event_ids := some overlap_ids, req_selector := none }]
       else [])
  let answerable := !(reasons.any (·.blocking))
  {
    evaluation_version := "1.0.0"
    question_id := question_id
    subject_id := subject_id
    answerable := answerable
    reasons := reasons
    data_requirements := data_requirements
    exposure_stats := exposure_stats
    comparison_stats := comparison_stats
    confounded_event_ids := confounded_ids
    overlap_event_ids := overlap_ids
  }

/-- `QuestionAnswerabilityEvaluator.evaluate`: the fallible pipeline (time
span parse, span filter, group matching, confound detection — in source
order) followed by the pure result assembly. -/
def evaluate (cfg : Config) (q : Question) (events_data : EventsDoc)
    (metrics_data : MetricsDoc) : Except String AnswerabilityResult := do
  let (span_start, span_end) ← parseTimeSpan q.time_span
  let events_in_span ← filterExcept
    (fun e => eventInSpan cfg e span_start span_end) events_data.events
  let exposure_matches ← filterExcept (exposureFilter cfg q) events_in_span
  let comparison_matches ← filterExcept (comparisonFilter cfg q) events_in_span
  let confounded_ids ← findConfoundedEvents cfg events_in_span cfg.min_isolation_minutes
  .ok (assembleResult cfg q events_data metrics_data
    exposure_matches comparison_matches confounded_ids)

end Answerability

/-
Batteries marks the `Rat` field operations `@[irreducible]`, which only
affects elaborator-side unfolding (the kernel ignores reducibility): lift
that so `decide` can evaluate concrete rational computations.
-/
set_option allowUnsafeReducibility true
attribute [local semireducible] Rat.add Rat.mul Rat.sub Rat.div Rat.inv

instance {ε α : Type} [DecidableEq ε] [DecidableEq α] : DecidableEq (Except ε α)
  | .ok a, .ok b =>
    match decEq a b with
    | isTrue h => isTrue (by rw [h])
    | isFalse h => isFalse (fun hh => h (Except.ok.inj hh))
  | .error a, .error b =>
    match decEq a b with
    | isTrue h => isTrue (by rw [h])
    | isFalse h => isFalse (fun hh => h (Except.error.inj hh))
  | .ok _, .error _ => isFalse (fun hh => Except.noConfusion hh)
  | .error _, .ok _ => isFalse (fun hh => Except.noConfusion hh)

namespace Answerability

/-- A parsable timestamp fixture at a given instant. -/
def tsAt (q : ℚ) : TS := ⟨"ts", some q⟩

/-- An event fixture: a meal event with a label, starting at `start`. -/
def mkEv (id : String) (start : ℚ) (lab : String) : Event :=
  { event_id := id, event_type := some "meal", start_time := tsAt start,
    end_time := none, label := some lab, source := none, ann_quality := none,
    context_tags := [], exposure_components := [] }

/-- C6/C7 fixture: event `[0, 30]`. -/
def evA : Event := { mkEv "a" 0 "x" with end_time := some (tsAt 30) }

/-- C6 fixture: event `[90, 120]` — 60 minutes after `evA` ends, between one
and two isolation buffers away. -/
def evB : Event := { mkEv "b" 90 "x" with end_time := some (tsAt 120) }

/-- C7 fixture: event `[50, 80]` — 20 minutes after `evA` ends, inside one
isolation buffer. -/
def evC : Event := { mkEv "c" 50 "x" with end_time := some (tsAt 80) }

/-- The parsed `(start, end)` times of the fixture events (end defaulting to
start plus the default event duration when absent). -/
def c6pt (e : Event) : ℚ × ℚ :=
  (e.start_time.parsed.getD 0,
   (e.end_time.map (fun ts => ts.parsed.getD 0)).getD
     (e.start_time.parsed.getD 0 + defaultConfig.default_event_duration_minutes))

/-- Following the spec's words for C6 (not the source): the OTHER event's
isolation-expanded window `[b.start - iso, b.end + iso]` intersects this
event's expanded window `[a.start - iso, a.end + iso]`. -/
def specExpandedIntersects (iso : ℚ) (a b : ℚ × ℚ) : Bool :=
  decide (b.1 - iso ≤ a.2 + iso ∧ a.1 - iso ≤ b.2 + iso)

/-- Occurrence count of a string in a list. -/
def countStr (i : String) : List String → ℕ
  | [] => 0
  | x :: xs => (if x = i then 1 else 0) + countStr i xs

/-- C8/C9/C10 fixture: the question window `[0, 180]` from event start. -/
def qwin : WindowSpec := ⟨some "event_start", some 0, some 180⟩

/-- A label-equality selector. -/
def selFor (lab : String) : Selector := ⟨some "label", some "=", .vstr lab, none⟩

/-- C8/C9/C10 fixture: iAUC outcome, exposure `label = food_x`, comparison
`label = food_y`, no conditions or time span. -/
def q9 : Question :=
  { question_id := some "q1", subject_id := none, time_zone := none,
    outcome := ⟨"iAUC", some qwin⟩,
    exposure := ⟨some "meal", some (selFor "food_x")⟩,
    comparison := ⟨some "meal", some (selFor "food_y")⟩,
    condition := [], time_span := none }

/-- An iAUC metric fixture at coverage 0.9 in the question window. -/
def metFor (id : String) : Metric := ⟨some id, some "iAUC", some qwin, some (9/10), none⟩

/-- Metrics for all fixture events. -/
def md9 : MetricsDoc := ⟨none, [metFor "y1", metFor "y2", metFor "x1", metFor "x2"]⟩

/-- C9 fixture: two comparison events and no exposure events, all far
apart. -/
def ed9 : EventsDoc := ⟨none, [mkEv "y1" 0 "food_y", mkEv "y2" 1000 "food_y"]⟩

/-- C9 fixture: `ed9` plus one matching, usable, isolated exposure event. -/
def ed9x : EventsDoc :=
  ⟨none, [mkEv "y1" 0 "food_y", mkEv "y2" 1000 "food_y", mkEv "x1" 5000 "food_x"]⟩

/-- Whether a fallible computation succeeded. -/
def isOkB {α : Type} : Except String α → Bool
  | .ok _ => true
  | .error _ => false

/-- C8 fixture: the fixture question with an unparsable time-span start. -/
def qBad : Question := { q9 with time_span := some ⟨⟨"not-a-timestamp", none⟩, tsAt 10⟩ }


/-- The parsed `(start, end)` instants of an event, with a dummy pair when
parsing fails (only ever used under a parse-success hypothesis). -/
def parsedTimes (cfg : Config) (e : Event) : ℚ × ℚ :=
  match parseEventTimes cfg e with
  | .ok t => t
  | .error _ => (0, 0)

/-- The reason codes of a reason list. -/
def codesOf (rs : List Reason) : List String := rs.map (·.code)

/-- The reason codes of an evaluation outcome. -/
def resultCodes (x : Except String AnswerabilityResult) : Except String (List String) :=
  x.map (fun r => codesOf r.reasons)

/-- The exposure group's usable event ids of an evaluation outcome. -/
def resultUsableExposure (x : Except String AnswerabilityResult) :
    Except String (List String) :=
  x.map (fun r => r.exposure_stats.usable_event_ids)

/-- C9 fixture: the default configuration with `min_events_per_group` raised
to 3, so one more usable event still leaves the exposure group under
threshold. -/
def cfg9 : Config := { defaultConfig with min_events_per_group := 3 }

/-- C9 fixture: a fresh matching, usable exposure event far from all
others. -/
def evX2 : Event := mkEv "x2" 9000 "food_x"

/-- A degenerate result record, used only as a fallback default. -/
def blankResult : AnswerabilityResult :=
  assembleResult cfg9 q9 ⟨none, []⟩ ⟨none, []⟩ [] [] []

/-- The payload of a successful evaluation, with a fallback default. -/
def orResult (d : AnswerabilityResult) : Except String AnswerabilityResult →
    AnswerabilityResult
  | .ok a => a
  | .error _ => d

/-- C9 witness fixture: the evaluation result on `ed9x` under `cfg9`. -/
def r9A : AnswerabilityResult :=
  orResult blankResult (evaluate cfg9 q9 ed9x md9)

/-- C9 witness fixture: the evaluation result on `ed9x` plus `evX2` under
`cfg9`. -/
def r9B : AnswerabilityResult :=
  orResult blankResult
    (evaluate cfg9 q9 ⟨ed9x.subject_id, ed9x.events ++ [evX2]⟩ md9)

end Answerability

namespace CGMMetrics

/-- C1 fixture: an empty series at the default 5-minute interval. -/
def emptySeries : CGMData := ⟨[], some 5, "mg/dL"⟩

/-- C1 fixture: a slightly inverted window, two minutes long backwards. -/
def invertedWindow : Window := ⟨"event_start", 0, -2⟩

/-- C4 fixture: six 5-minute samples `{95, 98, 96, 94, 97, 100}` in the 30
minutes before the event (the series of `test_baseline_simple`). -/
def sixSampleSeries : CGMData :=
  ⟨[⟨-30, 95, []⟩, ⟨-25, 98, []⟩, ⟨-20, 96, []⟩, ⟨-15, 94, []⟩, ⟨-10, 97, []⟩, ⟨-5, 100, []⟩],
   some 5, "mg/dL"⟩

/-- C4 fixture: an event starting at instant 0. -/
def eventAtZero : MEvent := ⟨"evt_1", 0⟩

end CGMMetrics

namespace CGMMetrics

/-- C2/C3/C5 fixture: series with a baseline plateau and a rising peak with
a tie at the maximum. -/
def peakSeries : CGMData :=
  ⟨[⟨-5, 100, []⟩, ⟨0, 110, []⟩, ⟨5, 120, []⟩, ⟨10, 120, []⟩], some 5, "mg/dL"⟩

/-- The delta-peak result the model computes on `peakSeries`. -/
def c2Result : DeltaPeakResult := ⟨"evt_1", 15, 3/37, 120, 105, 5⟩

/-- C3 fixture: a series that never rises above its baseline mean. -/
def flatSeries : CGMData :=
  ⟨[⟨-5, 100, []⟩, ⟨0, 100, []⟩, ⟨5, 90, []⟩], some 5, "mg/dL"⟩

/-- The iAUC result the model computes on `flatSeries`. -/
def c3Result : IAUCResult := ⟨"evt_1", 0, 2/37, 100, 2⟩

/-- C5 fixture: a single peak sample at 100 and a recovery window fitted
above the peak (fitted start 110 > peak 100). -/
def recoverySeries : CGMData :=
  ⟨[⟨0, 100, []⟩, ⟨200, 110, []⟩, ⟨210, 105, []⟩], some 5, "mg/dL"⟩

/-- The recovery-slope result the model computes on `recoverySeries`. -/
def c5Result : RecoverySlopeResult := ⟨"evt_1", -1/2, 99/1850, 100, 110, 105, some 50⟩

theorem listMax_mem : ∀ (l : List ℚ), l ≠ [] → listMax l ∈ l
  | [], h => absurd rfl h
  | [x], _ => by simp [listMax]
  | x :: y :: rest, _ => by
    rw [listMax]
    rcases max_choice x (listMax (y :: rest)) with h | h
    · rw [h]; exact List.mem_cons_self _ _
    · rw [h]; exact List.mem_cons_of_mem _ (listMax_mem (y :: rest) (by simp))

theorem le_listMax : ∀ (l : List ℚ) (a : ℚ), a ∈ l → a ≤ listMax l
  | [], a, h => absurd h (List.not_mem_nil a)
  | [x], a, h => by
    rw [List.mem_singleton] at h
    rw [h, listMax]
  | x :: y :: rest, a, h => by
    rw [listMax]
    rcases List.mem_cons.mp h with h1 | h1
    · rw [h1]; exact le_max_left _ _
    · exact le_trans (le_listMax (y :: rest) a h1) (le_max_right _ _)

theorem argmax_lt_length : ∀ (l : List ℚ), l ≠ [] → argmax l < l.length
  | [], h => absurd rfl h
  | [x], _ => by simp [argmax]
  | x :: y :: rest, _ => by
    simp only [argmax]
    by_cases h : listMax (y :: rest) > x
    · rw [if_pos h]
      have := argmax_lt_length (y :: rest) (by simp)
      simpa [Nat.succ_lt_succ_iff] using this
    · rw [if_neg h]
      simp

/-- `np.argmax` picks an index attaining the maximum, and every earlier
index is strictly below it (first-occurrence tie-break). -/
theorem argmax_spec : ∀ (l : List ℚ), l ≠ [] →
    l.getD (argmax l) 0 = listMax l ∧
    ∀ j, j < argmax l → l.getD j 0 < listMax l
  | [], h => absurd rfl h
  | [x], _ => by simp [argmax, listMax]
  | x :: y :: rest, _ => by
    simp only [argmax, listMax]
    by_cases h : listMax (y :: rest) > x
    · rw [if_pos h]
      obtain ⟨h1, h2⟩ := argmax_spec (y :: rest) (by simp)
      constructor
      · rw [max_eq_right (le_of_lt h)]
        simpa using h1
      · intro j hj
        rw [max_eq_right (le_of_lt h)]
        match j with
        | 0 => simpa using h
        | j + 1 =>
          have hj' : j < argmax (y :: rest) := Nat.succ_lt_succ_iff.mp hj
          simpa using h2 j hj'
    · rw [if_neg h]
      constructor
      · simp [max_eq_left (not_lt.mp h)]
      · intro j hj
        exact absurd hj (Nat.not_lt_zero j)

/-- `calculate_baseline_glucose` in projection form. -/
theorem calculate_baseline_glucose_eq (d : CGMData) (e : MEvent) (w : Window) :
    calculate_baseline_glucose d e w =
      if (extract_window_samples d e.start_time w).1.length = 0 then
        .error ("No CGM data in baseline window for event " ++ e.event_id)
      else
        .ok {
          event_id := e.event_id
          value := listMean ((extract_window_samples d e.start_time w).1.map (·.glucose_value))
          unit := d.unit
          coverage_ratio := (extract_window_samples d e.start_time w).2.1
          quality_flags := (extract_window_samples d e.start_time w).2.2
          window_samples := (extract_window_samples d e.start_time w).1.length
          expected_samples := calculate_expected_samples w d.interval
        } := rfl

/-- `calculate_delta_peak` in projection form. -/
theorem calculate_delta_peak_eq (d : CGMData) (e : MEvent) (bw pw : Window) :
    calculate_delta_peak d e bw pw =
      (calculate_baseline_glucose d e bw).bind (fun baseline_result =>
        if (extract_window_samples d e.start_time pw).1.length = 0 then
          .error ("No CGM data in peak window for event " ++ e.event_id)
        else
          .ok {
            event_id := e.event_id
            value := listMax ((extract_window_samples d e.start_time pw).1.map (·.glucose_value))
              - baseline_result.value
            coverage_ratio := (extract_window_samples d e.start_time pw).2.1
            peak_glucose := listMax ((extract_window_samples d e.start_time pw).1.map (·.glucose_value))
            baseline_glucose := baseline_result.value
            peak_time := (((extract_window_samples d e.start_time pw).1.get?
              (argmax ((extract_window_samples d e.start_time pw).1.map (·.glucose_value)))).getD
                default).timestamp
          }) := rfl

/-- `calculate_iAUC` in projection form. -/
theorem calculate_iAUC_eq (d : CGMData) (e : MEvent) (bw aw : Window) :
    calculate_iAUC d e bw aw =
      (calculate_baseline_glucose d e bw).bind (fun baseline_result =>
        if (extract_window_samples d e.start_time aw).1.length < 2 then
          .error ("Insufficient CGM data for iAUC calculation for event " ++ e.event_id)
        else
          .ok {
            event_id := e.event_id
            value := trapSum ((extract_window_samples d e.start_time aw).1.map
              (fun s => (s.timestamp, max (s.glucose_value - baseline_result.value) 0)))
            coverage_ratio := (extract_window_samples d e.start_time aw).2.1
            baseline_glucose := baseline_result.value
            window_samples := (extract_window_samples d e.start_time aw).1.length
          }) := rfl

theorem trapSum_nonneg : ∀ (l : List (ℚ × ℚ)),
    l.Pairwise (fun a b => a.1 ≤ b.1) → (∀ p ∈ l, 0 ≤ p.2) → 0 ≤ trapSum l
  | [], _, _ => le_of_eq rfl
  | [_], _, _ => le_of_eq rfl
  | a :: b :: rest, hp, hn => by
    rw [trapSum]
    have ha : 0 ≤ a.2 := hn a (List.mem_cons_self _ _)
    have hb : 0 ≤ b.2 := hn b (List.mem_cons_of_mem _ (List.mem_cons_self _ _))
    have hab : a.1 ≤ b.1 := (List.pairwise_cons.mp hp).1 b (List.mem_cons_self _ _)
    have h1 : 0 ≤ (a.2 + b.2) / 2 * (b.1 - a.1) := by
      apply mul_nonneg
      · linarith
      · linarith
    have h2 : 0 ≤ trapSum (b :: rest) :=
      trapSum_nonneg (b :: rest) (List.pairwise_cons.mp hp).2
        (fun p hp' => hn p (List.mem_cons_of_mem _ hp'))
    linarith

theorem trapSum_eq_zero : ∀ (l : List (ℚ × ℚ)), (∀ p ∈ l, p.2 = 0) → trapSum l = 0
  | [], _ => rfl
  | [_], _ => rfl
  | a :: b :: rest, hz => by
    rw [trapSum]
    have ha : a.2 = 0 := hz a (List.mem_cons_self _ _)
    have hb : b.2 = 0 := hz b (List.mem_cons_of_mem _ (List.mem_cons_self _ _))
    have h2 : trapSum (b :: rest) = 0 :=
      trapSum_eq_zero (b :: rest) (fun p hp' => hz p (List.mem_cons_of_mem _ hp'))
    rw [ha, hb, h2]
    ring

end CGMMetrics

namespace CGMMetrics

/-- C1 (amended): for every series, reference instant and window (with a
positive sampling interval), the Window Extractor's coverage ratio equals
`min(actual / expected, 1)` where `expected = max(int(duration/interval) + 1, 0)`
uses Python `int` truncation toward zero (floor only for non-negative
durations, not in general), the ratio is 1 whenever `expected = 0`, and it
always lies in [0, 1]. -/
theorem C1_coverage_ratio (d : CGMData) (ref : ℚ) (w : Window)
    (_hint : 0 < d.interval) :
    (calculate_expected_samples w d.interval ≠ 0 →
      (extract_window_samples d ref w).2.1 =
        min (((extract_window_samples d ref w).1.length : ℚ)
          / (calculate_expected_samples w d.interval : ℚ)) 1) ∧
    (calculate_expected_samples w d.interval = 0 →
      (extract_window_samples d ref w).2.1 = 1) ∧
    0 ≤ (extract_window_samples d ref w).2.1 ∧
    (extract_window_samples d ref w).2.1 ≤ 1 := by
  have hE0 : 0 ≤ calculate_expected_samples w d.interval := le_max_right _ _
  by_cases h : 0 < calculate_expected_samples w d.interval
  · have hcov : (extract_window_samples d ref w).2.1 =
        min (((extract_window_samples d ref w).1.length : ℚ)
          / (calculate_expected_samples w d.interval : ℚ)) 1 := by
      simp only [extract_window_samples]
      rw [if_pos h]
    refine ⟨fun _ => hcov, fun hz => absurd hz (ne_of_gt h), ?_, ?_⟩
    · rw [hcov]
      refine le_min (div_nonneg (Nat.cast_nonneg _) ?_) zero_le_one
      exact_mod_cast hE0
    · rw [hcov]; exact min_le_right _ _
  · have hz : calculate_expected_samples w d.interval = 0 :=
      le_antisymm (not_lt.mp h) hE0
    have hcov : (extract_window_samples d ref w).2.1 = 1 := by
      simp only [extract_window_samples]
      rw [if_neg h]
    exact ⟨fun hne => absurd hz hne, fun _ => hcov, by rw [hcov]; norm_num, le_of_eq hcov⟩

/-- C1 counterexample: on the empty series at interval 5 with the inverted
window `[0, -2]`, the code's coverage ratio is 0 (Python `int` truncates
`-0.4` to `0`, so `expected = 1`), while the spec's floor-based formula
makes `expected = 0` and so demands coverage 1. -/
theorem C1_counterexample :
    (extract_window_samples emptySeries 0 invertedWindow).2.1 = 0 ∧
    specCoverageRatio emptySeries 0 invertedWindow = 1 ∧
    (extract_window_samples emptySeries 0 invertedWindow).2.1
      ≠ specCoverageRatio emptySeries 0 invertedWindow := by decide

/-- C1 witness: the amended statement instantiated on the empty series and
the inverted window. -/
theorem C1_coverage_ratio_witness :
    0 < emptySeries.interval ∧
    ((calculate_expected_samples invertedWindow emptySeries.interval ≠ 0 →
      (extract_window_samples emptySeries 0 invertedWindow).2.1 =
        min (((extract_window_samples emptySeries 0 invertedWindow).1.length : ℚ)
          / (calculate_expected_samples invertedWindow emptySeries.interval : ℚ)) 1) ∧
    (calculate_expected_samples invertedWindow emptySeries.interval = 0 →
      (extract_window_samples emptySeries 0 invertedWindow).2.1 = 1) ∧
    0 ≤ (extract_window_samples emptySeries 0 invertedWindow).2.1 ∧
    (extract_window_samples emptySeries 0 invertedWindow).2.1 ≤ 1) :=
  ⟨by decide, C1_coverage_ratio emptySeries 0 invertedWindow (by decide)⟩

/-- C2: whenever `calculate_delta_peak` succeeds, the baseline succeeded
too, the value is exactly the maximum glucose in the peak window minus the
baseline mean, and the reported peak time is the timestamp of the first
sample attaining that maximum (all earlier samples are strictly below
it). -/
theorem C2_delta_peak (d : CGMData) (e : MEvent) (bw pw : Window) (r : DeltaPeakResult)
    (hok : calculate_delta_peak d e bw pw = .ok r) :
    ∃ b, calculate_baseline_glucose d e bw = .ok b ∧
      r.value = listMax ((extract_window_samples d e.start_time pw).1.map (·.glucose_value))
        - b.value ∧
      ∃ i, i < (extract_window_samples d e.start_time pw).1.length ∧
        r.peak_time = ((extract_window_samples d e.start_time pw).1.getD i default).timestamp ∧
        ((extract_window_samples d e.start_time pw).1.map (·.glucose_value)).getD i 0
          = listMax ((extract_window_samples d e.start_time pw).1.map (·.glucose_value)) ∧
        ∀ j, j < i →
          ((extract_window_samples d e.start_time pw).1.map (·.glucose_value)).getD j 0
            < listMax ((extract_window_samples d e.start_time pw).1.map (·.glucose_value)) := by
  rw [calculate_delta_peak_eq] at hok
  cases hb : calculate_baseline_glucose d e bw with
  | error msg => rw [hb] at hok; exact absurd hok (by simp [Except.bind])
  | ok b =>
    rw [hb] at hok
    simp only [Except.bind] at hok
    by_cases hlen : (extract_window_samples d e.start_time pw).1.length = 0
    · rw [if_pos hlen] at hok
      exact absurd hok (by simp)
    · rw [if_neg hlen] at hok
      have hr := Except.ok.inj hok
      refine ⟨b, rfl, ?_, ?_⟩
      · rw [← hr]
      · have hne : (extract_window_samples d e.start_time pw).1.map (·.glucose_value) ≠ [] := by
          simpa [List.map_eq_nil_iff] using hlen
        obtain ⟨hmax, hfirst⟩ := argmax_spec _ hne
        refine ⟨argmax ((extract_window_samples d e.start_time pw).1.map (·.glucose_value)),
          ?_, ?_, hmax, hfirst⟩
        · have := argmax_lt_length _ hne
          simpa using this
        · rw [← hr]
          rw [List.getD]

/-- C2 witness: `calculate_delta_peak` on `peakSeries` (baseline 105, peak
120 first attained at instant 5, value 15). -/
theorem C2_delta_peak_witness :
    calculate_delta_peak peakSeries eventAtZero defaultBaselineWindow defaultPeakWindow
      = .ok c2Result ∧
    (∃ b, calculate_baseline_glucose peakSeries eventAtZero defaultBaselineWindow = .ok b ∧
      c2Result.value = listMax ((extract_window_samples peakSeries eventAtZero.start_time
          defaultPeakWindow).1.map (·.glucose_value)) - b.value ∧
      ∃ i, i < (extract_window_samples peakSeries eventAtZero.start_time defaultPeakWindow).1.length ∧
        c2Result.peak_time = ((extract_window_samples peakSeries eventAtZero.start_time
          defaultPeakWindow).1.getD i default).timestamp ∧
        ((extract_window_samples peakSeries eventAtZero.start_time defaultPeakWindow).1.map
          (·.glucose_value)).getD i 0
          = listMax ((extract_window_samples peakSeries eventAtZero.start_time
            defaultPeakWindow).1.map (·.glucose_value)) ∧
        ∀ j, j < i →
          ((extract_window_samples peakSeries eventAtZero.start_time defaultPeakWindow).1.map
            (·.glucose_value)).getD j 0
            < listMax ((extract_window_samples peakSeries eventAtZero.start_time
              defaultPeakWindow).1.map (·.glucose_value))) :=
  ⟨by decide, C2_delta_peak peakSeries eventAtZero defaultBaselineWindow defaultPeakWindow
    c2Result (by decide)⟩

/-- C3: whenever `calculate_iAUC` succeeds on a series whose samples are
ordered by timestamp, the value is non-negative, and it is exactly zero
when no sample in the AUC window exceeds the baseline mean. -/
theorem C3_iAUC_nonneg (d : CGMData) (e : MEvent) (bw aw : Window) (r : IAUCResult)
    (hok : calculate_iAUC d e bw aw = .ok r)
    (hsorted : d.samples.Pairwise (fun a b => a.timestamp ≤ b.timestamp)) :
    0 ≤ r.value ∧
    ((∀ s ∈ (extract_window_samples d e.start_time aw).1,
        s.glucose_value ≤ r.baseline_glucose) → r.value = 0) := by
  rw [calculate_iAUC_eq] at hok
  cases hb : calculate_baseline_glucose d e bw with
  | error msg => rw [hb] at hok; exact absurd hok (by simp [Except.bind])
  | ok b =>
    rw [hb] at hok
    simp only [Except.bind] at hok
    by_cases hlen : (extract_window_samples d e.start_time aw).1.length < 2
    · rw [if_pos hlen] at hok
      exact absurd hok (by simp)
    · rw [if_neg hlen] at hok
      have hr := Except.ok.inj hok
      have hwsorted : (extract_window_samples d e.start_time aw).1.Pairwise
          (fun a b : Sample => a.timestamp ≤ b.timestamp) := by
        apply List.Pairwise.sublist _ hsorted
        simp only [extract_window_samples]
        exact List.filter_sublist _
      constructor
      · rw [← hr]
        apply trapSum_nonneg
        · rw [List.pairwise_map]
          exact hwsorted
        · intro p hp
          rw [List.mem_map] at hp
          obtain ⟨s, _, hs⟩ := hp
          rw [← hs]
          exact le_max_right _ _
      · intro hle
        rw [← hr]
        apply trapSum_eq_zero
        intro p hp
        rw [List.mem_map] at hp
        obtain ⟨s, hsmem, hs⟩ := hp
        have hsv : s.glucose_value ≤ b.value := by
          have h1 := hle s hsmem
          rw [← hr] at h1
          exact h1
        rw [← hs]
        simp only []
        rw [max_eq_right]
        linarith

/-- C3 witness: the flat-at-baseline series yields iAUC exactly 0. -/
theorem C3_iAUC_nonneg_witness :
    calculate_iAUC flatSeries eventAtZero defaultBaselineWindow defaultPeakWindow = .ok c3Result ∧
    flatSeries.samples.Pairwise (fun a b => a.timestamp ≤ b.timestamp) ∧
    (0 ≤ c3Result.value ∧
      ((∀ s ∈ (extract_window_samples flatSeries eventAtZero.start_time defaultPeakWindow).1,
          s.glucose_value ≤ c3Result.baseline_glucose) → c3Result.value = 0)) :=
  ⟨by decide, by decide,
    C3_iAUC_nonneg flatSeries eventAtZero defaultBaselineWindow defaultPeakWindow c3Result
      (by decide) (by decide)⟩

/-- C4 (amended): at interval 5, a series whose baseline-window samples
carry exactly the values {95, 98, 96, 94, 97, 100} yields baseline value
580/6 = 290/3 ≈ 96.67 as claimed, but coverage ratio 6/7 ≈ 0.857 — not
≈ 1.0 — because the inclusive window `[-30, 0]` expects
`int(30/5) + 1 = 7` samples. -/
theorem C4_baseline_example (d : CGMData) (e : MEvent)
    (hi : d.interval = 5)
    (hperm : ((extract_window_samples d e.start_time defaultBaselineWindow).1.map
      (·.glucose_value)).Perm [95, 98, 96, 94, 97, 100]) :
    (calculate_baseline_glucose d e defaultBaselineWindow).map
      (fun r => (r.value, r.coverage_ratio)) = .ok (290/3, 6/7) := by
  have hlen : (extract_window_samples d e.start_time defaultBaselineWindow).1.length = 6 := by
    have h := hperm.length_eq
    simpa using h
  have hsum : ((extract_window_samples d e.start_time defaultBaselineWindow).1.map
      (·.glucose_value)).sum = 580 := by
    rw [hperm.sum_eq]; norm_num
  have hmean : listMean ((extract_window_samples d e.start_time defaultBaselineWindow).1.map
      (·.glucose_value)) = 290/3 := by
    rw [listMean, hsum]
    rw [List.length_map, hlen]
    norm_num
  have hexp : calculate_expected_samples defaultBaselineWindow d.interval = 7 := by
    rw [hi]; decide
  have hcov : (extract_window_samples d e.start_time defaultBaselineWindow).2.1 = 6/7 := by
    simp only [extract_window_samples] at hlen ⊢
    rw [hexp]
    rw [if_pos (by decide : (0:ℤ) < 7)]
    rw [hlen]
    norm_num
  rw [calculate_baseline_glucose_eq]
  rw [if_neg (by rw [hlen]; decide)]
  simp only [Except.map, hmean, hcov]

/-- C4 counterexample: on the exact six-sample series of the spec's example
the value is ≈ 96.67 as claimed, but the coverage ratio is 6/7 < 0.95,
refuting `coverage_ratio ≈ 1.0`. -/
theorem C4_counterexample :
    (calculate_baseline_glucose sixSampleSeries eventAtZero defaultBaselineWindow).map
      (fun r => (r.value, r.coverage_ratio)) = .ok (290/3, 6/7) ∧
    ((6:ℚ)/7) < 19/20 := by decide

/-- C4 witness: the amended statement instantiated on the six-sample
series. -/
theorem C4_baseline_example_witness :
    sixSampleSeries.interval = 5 ∧
    ((extract_window_samples sixSampleSeries eventAtZero.start_time defaultBaselineWindow).1.map
      (·.glucose_value)).Perm [95, 98, 96, 94, 97, 100] ∧
    (calculate_baseline_glucose sixSampleSeries eventAtZero defaultBaselineWindow).map
      (fun r => (r.value, r.coverage_ratio)) = .ok (290/3, 6/7) :=
  ⟨by decide, by decide, C4_baseline_example sixSampleSeries eventAtZero (by decide) (by decide)⟩

/-- C5 (amended): whenever `calculate_recovery_slope` succeeds, the
`return_toward_baseline_percentage` field is non-`None` if and only if the
fitted recovery-window start value itself is positive (not the
peak-to-recovery-start difference, as the spec claims), and when present it
equals `(peak - fitted_end) / (peak - fitted_start) * 100`. -/
theorem C5_recovery_percentage (d : CGMData) (e : MEvent) (pw rw' : Window)
    (r : RecoverySlopeResult)
    (hok : calculate_recovery_slope d e pw rw' = .ok r) :
    (r.return_toward_baseline_percentage.isSome ↔ 0 < r.recovery_start) ∧
    (∀ p, r.return_toward_baseline_percentage = some p →
      p = (r.peak_glucose - r.recovery_end) / (r.peak_glucose - r.recovery_start) * 100) := by
  rw [calculate_recovery_slope] at hok
  by_cases h1 : (extract_window_samples d e.start_time pw).1.length = 0
  · rw [if_pos h1] at hok; exact absurd hok (by simp)
  · rw [if_neg h1] at hok
    by_cases h2 : (extract_window_samples d e.start_time rw').1.length < 2
    · rw [if_pos h2] at hok; exact absurd hok (by simp)
    · rw [if_neg h2] at hok
      have hr := Except.ok.inj hok
      subst hr
      by_cases h3 : recoveryStartValue d e rw' > 0
      · simp only [if_pos h3]
        refine ⟨by simpa using h3, fun p hp => ?_⟩
        simp only [Option.some.injEq] at hp
        rw [← hp]
      · simp only [if_neg h3]
        refine ⟨by simpa using not_lt.mp h3, fun p hp => ?_⟩
        exact absurd hp (by simp)

/-- C5 counterexample: on `recoverySeries` the fitted recovery start (110)
exceeds the peak (100), so peak − fitted-start is negative, yet the
percentage is reported (as 50), contradicting the claimed iff. -/
theorem C5_counterexample :
    (calculate_recovery_slope recoverySeries eventAtZero defaultPeakWindow
      defaultRecoveryWindow).map (fun r =>
        (r.peak_glucose, r.recovery_start, r.recovery_end,
          r.return_toward_baseline_percentage))
      = .ok (100, 110, 105, some 50) ∧
    ((100 : ℚ) - 110 < 0) := by decide

/-- C5 witness: the amended statement instantiated on `recoverySeries`. -/
theorem C5_recovery_percentage_witness :
    calculate_recovery_slope recoverySeries eventAtZero defaultPeakWindow
      defaultRecoveryWindow = .ok c5Result ∧
    ((c5Result.return_toward_baseline_percentage.isSome ↔ 0 < c5Result.recovery_start) ∧
    (∀ p, c5Result.return_toward_baseline_percentage = some p →
      p = (c5Result.peak_glucose - c5Result.recovery_end)
        / (c5Result.peak_glucose - c5Result.recovery_start) * 100)) :=
  ⟨by decide, C5_recovery_percentage recoverySeries eventAtZero defaultPeakWindow
    defaultRecoveryWindow c5Result (by decide)⟩

end CGMMetrics

namespace Answerability

theorem okBind {α β : Type} (a : α) (f : α → Except String β) :
    (do let x ← (.ok a : Except String α); f x) = f a := rfl

theorem errBind {α β : Type} (s : String) (f : α → Except String β) :
    (do let x ← (.error s : Except String α); f x) = .error s := rfl

theorem upsert_eq_append (acc : List (String × ℚ × ℚ)) (k : String) (v : ℚ × ℚ)
    (h : ∀ p ∈ acc, p.1 ≠ k) : upsert acc k v = acc ++ [(k, v)] := by
  have hfalse : (acc.any (fun p => decide (p.1 = k))) = false := by
    rw [List.any_eq_false]
    intro p hp
    simpa using h p hp
  rw [upsert]
  rw [if_neg (by rw [hfalse]; simp)]

theorem mem_insertSorted (x s : String) : ∀ (l : List String),
    (x ∈ insertSorted s l ↔ x = s ∨ x ∈ l)
  | [] => by simp [insertSorted]
  | y :: ys => by
    rw [insertSorted]
    by_cases h : strLe s y
    · rw [if_pos h]; simp
    · rw [if_neg h]
      simp only [List.mem_cons, mem_insertSorted x s ys]
      tauto

theorem mem_sortStrings (x : String) : ∀ (l : List String), x ∈ sortStrings l ↔ x ∈ l
  | [] => Iff.rfl
  | y :: ys => by
    rw [sortStrings, List.foldr_cons]
    rw [show List.foldr insertSorted [] ys = sortStrings ys from rfl]
    rw [mem_insertSorted, mem_sortStrings x ys]
    simp

/-- With parsable times and distinct event ids, the `event_times` dict is
the association list of events in order. -/
theorem buildEventTimes_eq (cfg : Config) (pt : Event → ℚ × ℚ) :
    ∀ (events : List Event) (acc : List (String × ℚ × ℚ)),
    (∀ e ∈ events, parseEventTimes cfg e = .ok (pt e)) →
    (∀ e ∈ events, ∀ p ∈ acc, p.1 ≠ e.event_id) →
    (events.map (·.event_id)).Nodup →
    buildEventTimes cfg events acc = .ok (acc ++ events.map (fun e => (e.event_id, pt e)))
  | [], acc, _, _, _ => by rw [buildEventTimes]; simp
  | e :: rest, acc, hp, hd, hn => by
    rw [buildEventTimes]
    rw [hp e (List.mem_cons_self _ _), okBind]
    rw [upsert_eq_append acc e.event_id (pt e)
      (fun p hpm => hd e (List.mem_cons_self _ _) p hpm)]
    have hn' := hn
    simp only [List.map_cons, List.nodup_cons] at hn'
    rw [buildEventTimes_eq cfg pt rest (acc ++ [(e.event_id, pt e)])
      (fun x hx => hp x (List.mem_cons_of_mem _ hx))
      ?_ hn'.2]
    · simp
    · intro x hx p hpm
      rcases List.mem_append.mp hpm with h1 | h1
      · exact hd x (List.mem_cons_of_mem _ hx) p h1
      · simp only [List.mem_singleton] at h1
        subst h1
        show e.event_id ≠ x.event_id
        intro hcontra
        exact hn'.1 (by rw [hcontra]; exact List.mem_map_of_mem _ hx)

theorem pairIntersects_symm (iso : ℚ) (a b : ℚ × ℚ) :
    pairIntersects iso a b = pairIntersects iso b a := by
  simp only [pairIntersects, decide_eq_decide]
  constructor
  · rintro ⟨h1, h2⟩; exact ⟨by linarith, by linarith⟩
  · rintro ⟨h1, h2⟩; exact ⟨by linarith, by linarith⟩

/-- Membership in the confounded set: an event is flagged iff some other
event's raw `[start, end]` interval meets its isolation-expanded window. -/
theorem mem_findConfounded_iff (cfg : Config) (iso : ℚ) (pt : Event → ℚ × ℚ)
    (events : List Event) (ids : List String)
    (hp : ∀ e ∈ events, parseEventTimes cfg e = .ok (pt e))
    (hnodup : (events.map (·.event_id)).Nodup)
    (hok : findConfoundedEvents cfg events iso = .ok ids)
    (e : Event) (he : e ∈ events) :
    e.event_id ∈ ids ↔ ∃ other ∈ events, other.event_id ≠ e.event_id ∧
      pairIntersects iso (pt e) (pt other) = true := by
  have hbuild := buildEventTimes_eq cfg pt events [] hp (by simp) hnodup
  rw [findConfoundedEvents, hbuild, okBind] at hok
  simp only [List.nil_append] at hok
  have hids := Except.ok.inj hok
  subst hids
  rw [mem_sortStrings]
  constructor
  · intro hmem
    rw [List.mem_map] at hmem
    obtain ⟨p, hpf, hp1⟩ := hmem
    rw [List.mem_filter] at hpf
    obtain ⟨hpe, hP⟩ := hpf
    rw [List.mem_map] at hpe
    obtain ⟨e', he', hpe'⟩ := hpe
    have he'e : e' = e := by
      have hfe : e'.event_id = e.event_id := by
        rw [← hpe'] at hp1
        simpa using hp1
      exact List.inj_on_of_nodup_map hnodup he' he hfe
    subst he'e
    subst hpe'
    rw [List.any_eq_true] at hP
    obtain ⟨o, hoe, ho⟩ := hP
    rw [List.mem_map] at hoe
    obtain ⟨other, hother, hoeq⟩ := hoe
    subst hoeq
    simp only [Bool.and_eq_true, bne_iff_ne] at ho
    exact ⟨other, hother, fun hcontra => ho.1 (by simp [hcontra]), ho.2⟩
  · rintro ⟨other, hother, hne, hint⟩
    rw [List.mem_map]
    refine ⟨(e.event_id, pt e), ?_, rfl⟩
    rw [List.mem_filter]
    refine ⟨List.mem_map_of_mem _ he, ?_⟩
    rw [List.any_eq_true]
    refine ⟨(other.event_id, pt other), List.mem_map_of_mem _ hother, ?_⟩
    simp only [Bool.and_eq_true, bne_iff_ne]
    exact ⟨hne, hint⟩

/-- C6 (amended): with parsable event times and distinct event ids, the
Confound Detector flags an event iff some other event's RAW window
`[other_start, other_end]` (not its isolation-expanded window, as the spec
claims) intersects the event's own expanded window
`[start - isolation, end + isolation]`; a missing end time defaults to
start plus the configured default event duration. -/
theorem C6_confound_detection (cfg : Config) (iso : ℚ) (pt : Event → ℚ × ℚ)
    (events : List Event) (ids : List String)
    (hp : ∀ e ∈ events, parseEventTimes cfg e = .ok (pt e))
    (hnodup : (events.map (·.event_id)).Nodup)
    (hok : findConfoundedEvents cfg events iso = .ok ids)
    (e : Event) (he : e ∈ events) :
    e.event_id ∈ ids ↔ ∃ other ∈ events, other.event_id ≠ e.event_id ∧
      (pt other).1 ≤ (pt e).2 + iso ∧ (pt e).1 - iso ≤ (pt other).2 := by
  rw [mem_findConfounded_iff cfg iso pt events ids hp hnodup hok e he]
  simp only [pairIntersects, decide_eq_true_eq, ge_iff_le]

/-- C6 witness: the membership characterization instantiated on two close
events (both flagged). -/
theorem C6_confound_detection_witness :
    (∀ e ∈ [evA, evC], parseEventTimes defaultConfig e = .ok (c6pt e)) ∧
    (([evA, evC].map (·.event_id)).Nodup) ∧
    findConfoundedEvents defaultConfig [evA, evC] 30 = .ok ["a", "c"] ∧
    (evA.event_id ∈ ["a", "c"] ↔ ∃ other ∈ [evA, evC], other.event_id ≠ evA.event_id ∧
      (c6pt other).1 ≤ (c6pt evA).2 + 30 ∧ (c6pt evA).1 - 30 ≤ (c6pt other).2) :=
  ⟨by decide, by decide, by decide,
    C6_confound_detection defaultConfig 30 c6pt [evA, evC] ["a", "c"]
      (by decide) (by decide) (by decide) evA (List.mem_cons_self _ _)⟩

/-- C6 counterexample: events `[0, 30]` and `[90, 120]` with isolation 30.
Their two expanded windows `[-30, 60]` and `[60, 150]` touch, so the
claim's both-expanded test says `evA` is confounded, but the code flags
nothing (the raw window `[90, 120]` misses `[-30, 60]`). -/
theorem C6_counterexample :
    specExpandedIntersects 30 (c6pt evA) (c6pt evB) = true ∧
    findConfoundedEvents defaultConfig [evA, evB] 30 = .ok [] := by decide

/-- C7: the pairwise confound test is symmetric — if it makes B confound A,
it also makes A confound B, and then both A and B are flagged. -/
theorem C7_symmetry (cfg : Config) (iso : ℚ) (pt : Event → ℚ × ℚ)
    (events : List Event) (ids : List String)
    (hp : ∀ e ∈ events, parseEventTimes cfg e = .ok (pt e))
    (hnodup : (events.map (·.event_id)).Nodup)
    (hok : findConfoundedEvents cfg events iso = .ok ids)
    (a b : Event) (ha : a ∈ events) (hb : b ∈ events)
    (hne : a.event_id ≠ b.event_id)
    (hconf : pairIntersects iso (pt a) (pt b) = true) :
    pairIntersects iso (pt b) (pt a) = true ∧
    a.event_id ∈ ids ∧ b.event_id ∈ ids := by
  have hsym : pairIntersects iso (pt b) (pt a) = true := by
    rw [pairIntersects_symm]; exact hconf
  refine ⟨hsym, ?_, ?_⟩
  · rw [mem_findConfounded_iff cfg iso pt events ids hp hnodup hok a ha]
    exact ⟨b, hb, Ne.symm hne, hconf⟩
  · rw [mem_findConfounded_iff cfg iso pt events ids hp hnodup hok b hb]
    exact ⟨a, ha, hne, hsym⟩

/-- C7 witness: symmetry instantiated on two overlapping events. -/
theorem C7_symmetry_witness :
    (∀ e ∈ [evA, evC], parseEventTimes defaultConfig e = .ok (c6pt e)) ∧
    (([evA, evC].map (·.event_id)).Nodup) ∧
    findConfoundedEvents defaultConfig [evA, evC] 30 = .ok ["a", "c"] ∧
    evA.event_id ≠ evC.event_id ∧
    pairIntersects 30 (c6pt evA) (c6pt evC) = true ∧
    (pairIntersects 30 (c6pt evC) (c6pt evA) = true ∧
      evA.event_id ∈ ["a", "c"] ∧ evC.event_id ∈ ["a", "c"]) :=
  ⟨by decide, by decide, by decide, by decide, by decide,
    C7_symmetry defaultConfig 30 c6pt [evA, evC] ["a", "c"]
      (by decide) (by decide) (by decide) evA evC (List.mem_cons_self _ _)
      (List.mem_cons_of_mem _ (List.mem_cons_self _ _)) (by decide) (by decide)⟩

end Answerability

namespace Answerability

theorem countStr_pos_iff_mem (i : String) : ∀ (l : List String), 0 < countStr i l ↔ i ∈ l
  | [] => by simp [countStr]
  | x :: xs => by
    rw [countStr]
    by_cases h : x = i
    · subst h
      simp
    · rw [if_neg h]
      simp only [Nat.zero_add, countStr_pos_iff_mem i xs, List.mem_cons]
      constructor
      · exact fun hm => Or.inr hm
      · rintro (h1 | h1)
        · exact absurd h1.symm h
        · exact h1

theorem countStr_nodup_le_one (i : String) : ∀ (l : List String), l.Nodup → countStr i l ≤ 1
  | [], _ => by simp [countStr]
  | x :: xs, hn => by
    rw [countStr]
    rw [List.nodup_cons] at hn
    by_cases h : x = i
    · subst h
      have : countStr x xs = 0 := by
        by_contra hne
        exact hn.1 ((countStr_pos_iff_mem x xs).mp (Nat.pos_of_ne_zero hne))
      rw [this, if_pos rfl]
    · rw [if_neg h, Nat.zero_add]
      exact countStr_nodup_le_one i xs hn.2

theorem classifyEvent_confounded_iff (cfg : Config) (mi : List (String × List Metric))
    (q : Question) (confIds : List String) (e : Event) :
    classifyEvent cfg mi q confIds e = .confounded ↔ e.event_id ∈ confIds := by
  rw [classifyEvent]
  by_cases h : e.event_id ∈ confIds
  · simp [h]
  · rw [if_neg h]
    simp only [h, iff_false]
    by_cases h2 : ((lookupMetrics mi e.event_id).filter
        (fun m => m.metric_name == some q.outcome.metric_name)).isEmpty
    · simp [h2]
    · rw [if_neg h2]
      cases selectMetric ((lookupMetrics mi e.event_id).filter
          (fun m => m.metric_name == some q.outcome.metric_name)) q.outcome.window with
      | none => simp
      | some m =>
        by_cases h3 : metricCoverage m < cfg.min_metric_coverage
        · simp [h3]
        · simp [h3]

theorem classifyBuckets_cons_conf {cfg : Config} {mi : List (String × List Metric)}
    {q : Question} {confIds : List String} {e : Event} (rest : List Event)
    (h : classifyEvent cfg mi q confIds e = .confounded) :
    classifyBuckets cfg mi q confIds (e :: rest) = classifyBuckets cfg mi q confIds rest := by
  rw [classifyBuckets, h]

theorem classifyBuckets_cons_missing {cfg : Config} {mi : List (String × List Metric)}
    {q : Question} {confIds : List String} {e : Event} (rest : List Event)
    (h : classifyEvent cfg mi q confIds e = .missing) :
    classifyBuckets cfg mi q confIds (e :: rest) =
      (e.event_id :: (classifyBuckets cfg mi q confIds rest).1,
        (classifyBuckets cfg mi q confIds rest).2.1,
        (classifyBuckets cfg mi q confIds rest).2.2.1,
        (classifyBuckets cfg mi q confIds rest).2.2.2) := by
  rw [classifyBuckets, h]

theorem classifyBuckets_cons_mismatch {cfg : Config} {mi : List (String × List Metric)}
    {q : Question} {confIds : List String} {e : Event} (rest : List Event)
    (h : classifyEvent cfg mi q confIds e = .mismatch) :
    classifyBuckets cfg mi q confIds (e :: rest) =
      ((classifyBuckets cfg mi q confIds rest).1,
        (classifyBuckets cfg mi q confIds rest).2.1,
        e.event_id :: (classifyBuckets cfg mi q confIds rest).2.2.1,
        (classifyBuckets cfg mi q confIds rest).2.2.2) := by
  rw [classifyBuckets, h]

theorem classifyBuckets_cons_lowq {cfg : Config} {mi : List (String × List Metric)}
    {q : Question} {confIds : List String} {e : Event} (rest : List Event)
    (h : classifyEvent cfg mi q confIds e = .lowq) :
    classifyBuckets cfg mi q confIds (e :: rest) =
      ((classifyBuckets cfg mi q confIds rest).1,
        e.event_id :: (classifyBuckets cfg mi q confIds rest).2.1,
        (classifyBuckets cfg mi q confIds rest).2.2.1,
        (classifyBuckets cfg mi q confIds rest).2.2.2) := by
  rw [classifyBuckets, h]

theorem classifyBuckets_cons_usable {cfg : Config} {mi : List (String × List Metric)}
    {q : Question} {confIds : List String} {e : Event} (rest : List Event)
    (h : classifyEvent cfg mi q confIds e = .usable) :
    classifyBuckets cfg mi q confIds (e :: rest) =
      ((classifyBuckets cfg mi q confIds rest).1,
        (classifyBuckets cfg mi q confIds rest).2.1,
        (classifyBuckets cfg mi q confIds rest).2.2.1,
        e.event_id :: (classifyBuckets cfg mi q confIds rest).2.2.2) := by
  rw [classifyBuckets, h]

theorem filter_mem_cons (confIds : List String) (x : String) (xs : List String) :
    (x :: xs).filter (fun y => y ∈ confIds) =
      if x ∈ confIds then x :: xs.filter (fun y => y ∈ confIds)
      else xs.filter (fun y => y ∈ confIds) := by
  rw [List.filter_cons]
  by_cases h : x ∈ confIds
  · rw [if_pos h, if_pos (by simpa using h)]
  · rw [if_neg h, if_neg (by simpa using h)]

theorem classify_count (cfg : Config) (mi : List (String × List Metric)) (q : Question)
    (confIds : List String) :
    ∀ (events : List Event) (i : String),
    countStr i (classifyBuckets cfg mi q confIds events).1
      + countStr i (classifyBuckets cfg mi q confIds events).2.1
      + countStr i (classifyBuckets cfg mi q confIds events).2.2.1
      + countStr i (classifyBuckets cfg mi q confIds events).2.2.2
      + countStr i ((events.map (·.event_id)).filter (fun x => x ∈ confIds))
    = countStr i (events.map (·.event_id)) := by
  intro events
  induction events with
  | nil => intro i; rfl
  | cons e rest ih =>
    intro i
    have hcount := ih i
    simp only [List.map_cons, filter_mem_cons]
    cases hc : classifyEvent cfg mi q confIds e with
    | confounded =>
      have hmem : e.event_id ∈ confIds :=
        (classifyEvent_confounded_iff cfg mi q confIds e).mp hc
      rw [classifyBuckets_cons_conf rest hc, if_pos hmem]
      rw [countStr, countStr]
      omega
    | missing =>
      have hmem : e.event_id ∉ confIds := fun hm => by
        rw [(classifyEvent_confounded_iff cfg mi q confIds e).mpr hm] at hc
        exact Classification.noConfusion hc
      rw [classifyBuckets_cons_missing rest hc, if_neg hmem]
      simp only []
      rw [countStr, countStr]
      omega
    | mismatch =>
      have hmem : e.event_id ∉ confIds := fun hm => by
        rw [(classifyEvent_confounded_iff cfg mi q confIds e).mpr hm] at hc
        exact Classification.noConfusion hc
      rw [classifyBuckets_cons_mismatch rest hc, if_neg hmem]
      simp only []
      rw [countStr, countStr]
      omega
    | lowq =>
      have hmem : e.event_id ∉ confIds := fun hm => by
        rw [(classifyEvent_confounded_iff cfg mi q confIds e).mpr hm] at hc
        exact Classification.noConfusion hc
      rw [classifyBuckets_cons_lowq rest hc, if_neg hmem]
      simp only []
      rw [countStr, countStr]
      omega
    | usable =>
      have hmem : e.event_id ∉ confIds := fun hm => by
        rw [(classifyEvent_confounded_iff cfg mi q confIds e).mpr hm] at hc
        exact Classification.noConfusion hc
      rw [classifyBuckets_cons_usable rest hc, if_neg hmem]
      simp only []
      rw [countStr, countStr]
      omega

end Answerability

namespace Answerability

theorem evaluateGroup_eq (cfg : Config) (events : List Event)
    (mi : List (String × List Metric)) (q : Question) (confIds : List String) :
    evaluateGroup cfg events mi q confIds =
      { metric_name := q.outcome.metric_name
        matched_event_ids := events.map (·.event_id)
        usable_event_ids := (classifyBuckets cfg mi q confIds events).2.2.2
        confounded_event_ids := (events.map (·.event_id)).filter (fun i => i ∈ confIds)
        missing_metric_event_ids := (classifyBuckets cfg mi q confIds events).1
        low_quality_metric_event_ids := (classifyBuckets cfg mi q confIds events).2.1
        window_mismatch_event_ids := (classifyBuckets cfg mi q confIds events).2.2.1 } := rfl

/-- C10: for every evaluated group with distinct matched event ids, the
per-group match stats partition the matched events — an id is matched iff
it lies in one of the five buckets (confounded, missing-metric,
window-mismatch, low-quality, usable), and a matched id lies in exactly one
of them. -/
theorem C10_partition (cfg : Config) (events : List Event)
    (mi : List (String × List Metric)) (q : Question) (confIds : List String)
    (hnodup : (events.map (·.event_id)).Nodup) (i : String) :
    (i ∈ (evaluateGroup cfg events mi q confIds).matched_event_ids ↔
      i ∈ (evaluateGroup cfg events mi q confIds).confounded_event_ids
        ∨ i ∈ (evaluateGroup cfg events mi q confIds).missing_metric_event_ids
        ∨ i ∈ (evaluateGroup cfg events mi q confIds).window_mismatch_event_ids
        ∨ i ∈ (evaluateGroup cfg events mi q confIds).low_quality_metric_event_ids
        ∨ i ∈ (evaluateGroup cfg events mi q confIds).usable_event_ids) ∧
    (i ∈ (evaluateGroup cfg events mi q confIds).matched_event_ids →
      countStr i (evaluateGroup cfg events mi q confIds).confounded_event_ids
        + countStr i (evaluateGroup cfg events mi q confIds).missing_metric_event_ids
        + countStr i (evaluateGroup cfg events mi q confIds).window_mismatch_event_ids
        + countStr i (evaluateGroup cfg events mi q confIds).low_quality_metric_event_ids
        + countStr i (evaluateGroup cfg events mi q confIds).usable_event_ids = 1) := by
  have hmaster := classify_count cfg mi q confIds events i
  rw [evaluateGroup_eq]
  simp only []
  constructor
  · rw [← countStr_pos_iff_mem, ← countStr_pos_iff_mem, ← countStr_pos_iff_mem,
      ← countStr_pos_iff_mem, ← countStr_pos_iff_mem, ← countStr_pos_iff_mem]
    omega
  · intro hmem
    have hle := countStr_nodup_le_one i _ hnodup
    rw [← countStr_pos_iff_mem] at hmem
    omega

/-- C10 witness: the partition instantiated on a two-event group. -/
theorem C10_partition_witness :
    (([mkEv "y1" 0 "food_y", mkEv "x1" 5000 "food_x"].map (·.event_id)).Nodup) ∧
    ((("y1" : String) ∈ (evaluateGroup defaultConfig [mkEv "y1" 0 "food_y", mkEv "x1" 5000 "food_x"]
        (indexMetrics md9.metrics) q9 []).matched_event_ids ↔
      ("y1" : String) ∈ (evaluateGroup defaultConfig [mkEv "y1" 0 "food_y", mkEv "x1" 5000 "food_x"]
          (indexMetrics md9.metrics) q9 []).confounded_event_ids
        ∨ ("y1" : String) ∈ (evaluateGroup defaultConfig [mkEv "y1" 0 "food_y", mkEv "x1" 5000 "food_x"]
          (indexMetrics md9.metrics) q9 []).missing_metric_event_ids
        ∨ ("y1" : String) ∈ (evaluateGroup defaultConfig [mkEv "y1" 0 "food_y", mkEv "x1" 5000 "food_x"]
          (indexMetrics md9.metrics) q9 []).window_mismatch_event_ids
        ∨ ("y1" : String) ∈ (evaluateGroup defaultConfig [mkEv "y1" 0 "food_y", mkEv "x1" 5000 "food_x"]
          (indexMetrics md9.metrics) q9 []).low_quality_metric_event_ids
        ∨ ("y1" : String) ∈ (evaluateGroup defaultConfig [mkEv "y1" 0 "food_y", mkEv "x1" 5000 "food_x"]
          (indexMetrics md9.metrics) q9 []).usable_event_ids) ∧
    (("y1" : String) ∈ (evaluateGroup defaultConfig [mkEv "y1" 0 "food_y", mkEv "x1" 5000 "food_x"]
        (indexMetrics md9.metrics) q9 []).matched_event_ids →
      countStr "y1" (evaluateGroup defaultConfig [mkEv "y1" 0 "food_y", mkEv "x1" 5000 "food_x"]
          (indexMetrics md9.metrics) q9 []).confounded_event_ids
        + countStr "y1" (evaluateGroup defaultConfig [mkEv "y1" 0 "food_y", mkEv "x1" 5000 "food_x"]
          (indexMetrics md9.metrics) q9 []).missing_metric_event_ids
        + countStr "y1" (evaluateGroup defaultConfig [mkEv "y1" 0 "food_y", mkEv "x1" 5000 "food_x"]
          (indexMetrics md9.metrics) q9 []).window_mismatch_event_ids
        + countStr "y1" (evaluateGroup defaultConfig [mkEv "y1" 0 "food_y", mkEv "x1" 5000 "food_x"]
          (indexMetrics md9.metrics) q9 []).low_quality_metric_event_ids
        + countStr "y1" (evaluateGroup defaultConfig [mkEv "y1" 0 "food_y", mkEv "x1" 5000 "food_x"]
          (indexMetrics md9.metrics) q9 []).usable_event_ids = 1)) :=
  ⟨by decide,
    C10_partition defaultConfig [mkEv "y1" 0 "food_y", mkEv "x1" 5000 "food_x"]
      (indexMetrics md9.metrics) q9 [] (by decide) "y1"⟩

end Answerability

namespace Answerability

theorem filterExcept_ok {α : Type} (f : α → Except String Bool) :
    ∀ (l : List α), (∀ a ∈ l, ∃ b, f a = .ok b) →
    ∃ l', filterExcept f l = .ok l' ∧ l'.Sublist l
  | [], _ => ⟨[], rfl, List.Sublist.refl []⟩
  | x :: xs, h => by
    obtain ⟨b, hb⟩ := h x (List.mem_cons_self _ _)
    obtain ⟨l', hl', hsub⟩ := filterExcept_ok f xs (fun a ha => h a (List.mem_cons_of_mem _ ha))
    rw [filterExcept, hb, okBind, hl', okBind]
    cases b
    · exact ⟨l', by simp, hsub.cons x⟩
    · exact ⟨x :: l', by simp, hsub.cons₂ x⟩

theorem parseEventTimes_ok (cfg : Config) (e : Event)
    (h1 : e.start_time.parsed.isSome = true)
    (h2 : ∀ ts ∈ e.end_time, ts.parsed.isSome = true) :
    ∃ t, parseEventTimes cfg e = .ok t := by
  obtain ⟨s, hs⟩ := Option.isSome_iff_exists.mp h1
  rw [parseEventTimes]
  rw [show parseTimestamp e.start_time = .ok s by rw [parseTimestamp, hs]]
  rw [okBind]
  cases he : e.end_time with
  | none => exact ⟨(s, s + cfg.default_event_duration_minutes), rfl⟩
  | some ts =>
    obtain ⟨u, hu⟩ := Option.isSome_iff_exists.mp (h2 ts (by rw [he]; exact rfl))
    simp only []
    rw [show parseTimestamp ts = .ok u by rw [parseTimestamp, hu]]
    exact ⟨(s, u), rfl⟩

theorem eventInSpan_ok (cfg : Config) (e : Event) (ss se : Option ℚ)
    (hpt : ∃ t, parseEventTimes cfg e = .ok t) :
    ∃ b, eventInSpan cfg e ss se = .ok b := by
  obtain ⟨t, ht⟩ := hpt
  cases ss with
  | none => exact ⟨true, rfl⟩
  | some a =>
    cases se with
    | none => exact ⟨true, rfl⟩
    | some b =>
      rw [eventInSpan, ht, okBind]
      exact ⟨_, rfl⟩

theorem buildEventTimes_ok (cfg : Config) :
    ∀ (events : List Event) (acc : List (String × ℚ × ℚ)),
    (∀ e ∈ events, ∃ t, parseEventTimes cfg e = .ok t) →
    ∃ entries, buildEventTimes cfg events acc = .ok entries
  | [], acc, _ => ⟨acc, rfl⟩
  | e :: rest, acc, h => by
    obtain ⟨t, ht⟩ := h e (List.mem_cons_self _ _)
    obtain ⟨entries, hent⟩ := buildEventTimes_ok cfg rest (upsert acc e.event_id t)
      (fun a ha => h a (List.mem_cons_of_mem _ ha))
    rw [buildEventTimes, ht, okBind, hent]
    exact ⟨entries, rfl⟩

theorem findConfoundedEvents_ok (cfg : Config) (events : List Event) (iso : ℚ)
    (h : ∀ e ∈ events, ∃ t, parseEventTimes cfg e = .ok t) :
    ∃ ids, findConfoundedEvents cfg events iso = .ok ids := by
  obtain ⟨entries, hent⟩ := buildEventTimes_ok cfg events [] h
  rw [findConfoundedEvents, hent, okBind]
  exact ⟨_, rfl⟩

end Answerability

namespace Answerability

theorem exists_of_isOkB {α : Type} (x : Except String α) (h : isOkB x = true) :
    ∃ a, x = .ok a := by
  cases x with
  | ok a => exact ⟨a, rfl⟩
  | error e => exact absurd h (by rw [isOkB]; simp)

/-- C8 (amended): `evaluate` returns a structured result — it cannot raise
— provided the input is well-formed: the question's time-span timestamps
parse, every event's timestamps parse, and the selector/condition
evaluation of every event succeeds (comparisons between comparable
values). On malformed input (e.g. an unparsable timestamp) it raises
instead of returning a `Reason`, contradicting the claim as stated. -/
theorem C8_no_raise (cfg : Config) (q : Question) (ed : EventsDoc) (md : MetricsDoc)
    (hspan : ∀ sp ∈ q.time_span, sp.start_time.parsed.isSome = true
      ∧ sp.end_time.parsed.isSome = true)
    (hev : ∀ e ∈ ed.events, e.start_time.parsed.isSome = true
      ∧ ∀ ts ∈ e.end_time, ts.parsed.isSome = true)
    (hfil : ∀ e ∈ ed.events, (∃ b, exposureFilter cfg q e = .ok b)
      ∧ (∃ b, comparisonFilter cfg q e = .ok b)) :
    ∃ r, evaluate cfg q ed md = .ok r := by
  have hsp : ∃ sp, parseTimeSpan q.time_span = .ok sp := by
    cases hts : q.time_span with
    | none => exact ⟨(none, none), rfl⟩
    | some sp =>
      obtain ⟨h1, h2⟩ := hspan sp (by rw [hts]; exact rfl)
      obtain ⟨a, ha⟩ := Option.isSome_iff_exists.mp h1
      obtain ⟨b, hb⟩ := Option.isSome_iff_exists.mp h2
      rw [parseTimeSpan]
      rw [show parseTimestamp sp.start_time = .ok a by rw [parseTimestamp, ha], okBind]
      rw [show parseTimestamp sp.end_time = .ok b by rw [parseTimestamp, hb], okBind]
      exact ⟨(some a, some b), rfl⟩
  obtain ⟨⟨ss, se⟩, hsp⟩ := hsp
  have hptall : ∀ e ∈ ed.events, ∃ t, parseEventTimes cfg e = .ok t := fun e he =>
    parseEventTimes_ok cfg e (hev e he).1 (hev e he).2
  obtain ⟨inSpan, hinSpan, hsub⟩ := filterExcept_ok
    (fun e => eventInSpan cfg e ss se) ed.events
    (fun e he => eventInSpan_ok cfg e ss se (hptall e he))
  obtain ⟨expM, hexpM, _⟩ := filterExcept_ok (exposureFilter cfg q) inSpan
    (fun e he => (hfil e (hsub.subset he)).1)
  obtain ⟨compM, hcompM, _⟩ := filterExcept_ok (comparisonFilter cfg q) inSpan
    (fun e he => (hfil e (hsub.subset he)).2)
  obtain ⟨confIds, hconf⟩ := findConfoundedEvents_ok cfg inSpan cfg.min_isolation_minutes
    (fun e he => hptall e (hsub.subset he))
  apply exists_of_isOkB
  rw [evaluate]
  rw [hsp, okBind]
  simp only []
  rw [hinSpan, okBind]
  rw [hexpM, okBind]
  rw [hcompM, okBind]
  rw [hconf, okBind]
  rfl

end Answerability

namespace Answerability

/-- C8 counterexample: with an unparsable `time_span.start_time`,
`evaluate` raises (`ValueError` from `_parse_timestamp`) rather than
returning a result. -/
theorem C8_counterexample : isOkB (evaluate defaultConfig qBad ed9 md9) = false := by decide

/-- C8 witness: the amended statement instantiated on well-formed fixture
documents. -/
theorem C8_no_raise_witness :
    (∀ sp ∈ q9.time_span, sp.start_time.parsed.isSome = true
      ∧ sp.end_time.parsed.isSome = true) ∧
    (∀ e ∈ ed9.events, e.start_time.parsed.isSome = true
      ∧ ∀ ts ∈ e.end_time, ts.parsed.isSome = true) ∧
    (∀ e ∈ ed9.events, (∃ b, exposureFilter defaultConfig q9 e = .ok b)
      ∧ (∃ b, comparisonFilter defaultConfig q9 e = .ok b)) ∧
    (∃ r, evaluate defaultConfig q9 ed9 md9 = .ok r) :=
  ⟨by decide, by decide, by decide,
    C8_no_raise defaultConfig q9 ed9 md9 (by decide) (by decide) (by decide)⟩

end Answerability


namespace Answerability


theorem parse_eq_parsedTimes (cfg : Config) (e : Event)
    (h : ∃ t, parseEventTimes cfg e = .ok t) :
    parseEventTimes cfg e = .ok (parsedTimes cfg e) := by
  obtain ⟨t, ht⟩ := h
  rw [parsedTimes, ht]

theorem filterExcept_sublist {α : Type} (f : α → Except String Bool) :
    ∀ (l l' : List α), filterExcept f l = .ok l' → l'.Sublist l
  | [], l', h => by
    rw [filterExcept] at h
    rw [← Except.ok.inj h]
  | x :: xs, l', h => by
    rw [filterExcept] at h
    cases hfx : f x with
    | error m => rw [hfx, errBind] at h; exact absurd h (by simp)
    | ok b =>
      rw [hfx, okBind] at h
      cases hrest : filterExcept f xs with
      | error m => rw [hrest, errBind] at h; exact absurd h (by simp)
      | ok rest =>
        rw [hrest, okBind] at h
        have hsub := filterExcept_sublist f xs rest hrest
        cases b
        · rw [← Except.ok.inj h]
          exact hsub.cons x
        · rw [← Except.ok.inj h]
          exact hsub.cons₂ x

theorem filterExcept_append_ok {α : Type} (f : α → Except String Bool) :
    ∀ (l1 l2 : List α) (a b : List α),
    filterExcept f l1 = .ok a → filterExcept f l2 = .ok b →
    filterExcept f (l1 ++ l2) = .ok (a ++ b)
  | [], l2, a, b, h1, h2 => by
    rw [filterExcept] at h1
    rw [List.nil_append, ← Except.ok.inj h1, h2]
    simp
  | x :: xs, l2, a, b, h1, h2 => by
    rw [filterExcept] at h1
    cases hfx : f x with
    | error m => rw [hfx, errBind] at h1; exact absurd h1 (by simp)
    | ok bx =>
      rw [hfx, okBind] at h1
      cases hrest : filterExcept f xs with
      | error m => rw [hrest, errBind] at h1; exact absurd h1 (by simp)
      | ok rest =>
        rw [hrest, okBind] at h1
        rw [List.cons_append, filterExcept, hfx, okBind]
        rw [filterExcept_append_ok f xs l2 rest b hrest h2, okBind]
        cases bx
        · simpa using h1
        · rw [← Except.ok.inj h1]
          simp

theorem filterExcept_single_true {α : Type} (f : α → Except String Bool) (x : α)
    (h : f x = .ok true) : filterExcept f [x] = .ok [x] := by
  rw [filterExcept, h, okBind, filterExcept, okBind]
  simp

theorem buildEventTimes_elem_ok (cfg : Config) :
    ∀ (l : List Event) (acc m : List (String × ℚ × ℚ)),
    buildEventTimes cfg l acc = .ok m → ∀ e ∈ l, ∃ t, parseEventTimes cfg e = .ok t
  | [], _, _, _, e, he => absurd he (List.not_mem_nil e)
  | x :: xs, acc, m, h, e, he => by
    rw [buildEventTimes] at h
    cases hpx : parseEventTimes cfg x with
    | error msg => rw [hpx, errBind] at h; exact absurd h (by simp)
    | ok t =>
      rw [hpx, okBind] at h
      rcases List.mem_cons.mp he with h1 | h1
      · exact ⟨t, by rw [h1]; exact hpx⟩
      · exact buildEventTimes_elem_ok cfg xs (upsert acc x.event_id t) m h e h1

theorem findConfounded_destruct (cfg : Config) (l : List Event) (iso : ℚ) (ids : List String)
    (h : findConfoundedEvents cfg l iso = .ok ids) :
    ∃ entries, buildEventTimes cfg l [] = .ok entries ∧
      ids = sortStrings ((entries.filter (fun p =>
        entries.any (fun o => (o.1 != p.1) && pairIntersects iso p.2 o.2))).map (·.1)) := by
  rw [findConfoundedEvents] at h
  cases hb : buildEventTimes cfg l [] with
  | error m => rw [hb, errBind] at h; exact absurd h (by simp)
  | ok entries =>
    rw [hb, okBind] at h
    exact ⟨entries, rfl, (Except.ok.inj h).symm⟩

theorem findConfounded_append_single (cfg : Config) (iso : ℚ) (inSpan : List Event)
    (E : Event) (confIds : List String)
    (hconf : findConfoundedEvents cfg inSpan iso = .ok confIds)
    (hnodup : ((inSpan ++ [E]).map (·.event_id)).Nodup)
    (hEpt : ∃ t, parseEventTimes cfg E = .ok t)
    (hiso : ∀ A ∈ inSpan, pairIntersects iso (parsedTimes cfg E) (parsedTimes cfg A) = false) :
    findConfoundedEvents cfg (inSpan ++ [E]) iso = .ok confIds := by
  obtain ⟨entries, hbuild, hids⟩ := findConfounded_destruct cfg inSpan iso confIds hconf
  have hnodup' := hnodup
  rw [List.map_append, List.nodup_append] at hnodup'
  obtain ⟨hnodupOld, _, hdisj⟩ := hnodup'
  have hfresh : ∀ A ∈ inSpan, A.event_id ≠ E.event_id := by
    intro A hA
    intro hcontra
    exact hdisj (List.mem_map_of_mem _ hA) (by simp [hcontra])
  have hparse : ∀ e ∈ inSpan, parseEventTimes cfg e = .ok (parsedTimes cfg e) :=
    fun e he => parse_eq_parsedTimes cfg e (buildEventTimes_elem_ok cfg inSpan [] entries hbuild e he)
  have hentries : entries = inSpan.map (fun e => (e.event_id, parsedTimes cfg e)) := by
    have hq := buildEventTimes_eq cfg (parsedTimes cfg) inSpan [] hparse (by simp) hnodupOld
    rw [hq] at hbuild
    simpa using (Except.ok.inj hbuild).symm
  have hparseAll : ∀ e ∈ inSpan ++ [E], parseEventTimes cfg e = .ok (parsedTimes cfg e) := by
    intro e he
    rcases List.mem_append.mp he with h1 | h1
    · exact hparse e h1
    · rw [List.mem_singleton] at h1
      subst h1
      exact parse_eq_parsedTimes cfg e hEpt
  have hbuildNew := buildEventTimes_eq cfg (parsedTimes cfg) (inSpan ++ [E]) []
    hparseAll (by simp) hnodup
  rw [findConfoundedEvents, hbuildNew, okBind]
  rw [List.map_append, List.nil_append]
  set Eent : String × ℚ × ℚ := (E.event_id, parsedTimes cfg E) with hEent
  set entriesOld := inSpan.map (fun e => (e.event_id, parsedTimes cfg e)) with hentriesOld
  have hmemOld : ∀ p ∈ entriesOld, ∃ A ∈ inSpan, p = (A.event_id, parsedTimes cfg A) := by
    intro p hp
    rw [hentriesOld] at hp
    rw [List.mem_map] at hp
    obtain ⟨A, hA, hAp⟩ := hp
    exact ⟨A, hA, hAp.symm⟩
  have hEfalse : ∀ p ∈ entriesOld, pairIntersects iso p.2 Eent.2 = false := by
    intro p hp
    obtain ⟨A, hA, hAp⟩ := hmemOld p hp
    rw [hAp, hEent]
    rw [pairIntersects_symm]
    exact hiso A hA
  have hEconf : ∀ p ∈ entriesOld, ((p.1 != Eent.1) && pairIntersects iso Eent.2 p.2) = false := by
    intro p hp
    obtain ⟨A, hA, hAp⟩ := hmemOld p hp
    rw [hAp, hEent]
    simp only [Bool.and_eq_false_iff]
    right
    exact hiso A hA
  have hfilter : (List.map (fun e => (e.event_id, parsedTimes cfg e)) [E]) = [Eent] := by
    rw [hEent]; rfl
  rw [hfilter]
  have hPsame : ∀ p ∈ entriesOld,
      ((entriesOld ++ [Eent]).any (fun o => (o.1 != p.1) && pairIntersects iso p.2 o.2))
        = (entriesOld.any (fun o => (o.1 != p.1) && pairIntersects iso p.2 o.2)) := by
    intro p hp
    rw [List.any_append]
    have : ([Eent].any (fun o => (o.1 != p.1) && pairIntersects iso p.2 o.2)) = false := by
      simp only [List.any_cons, List.any_nil, Bool.or_false]
      rw [Bool.and_eq_false_iff]
      right
      exact hEfalse p hp
    rw [this, Bool.or_false]
  have hPE : ((entriesOld ++ [Eent]).any (fun o => (o.1 != Eent.1) && pairIntersects iso Eent.2 o.2))
      = false := by
    rw [List.any_append]
    have h1 : (entriesOld.any (fun o => (o.1 != Eent.1) && pairIntersects iso Eent.2 o.2)) = false := by
      rw [List.any_eq_false]
      intro p hp
      rw [hEconf p hp]
      simp
    have h2 : ([Eent].any (fun o => (o.1 != Eent.1) && pairIntersects iso Eent.2 o.2)) = false := by
      simp
    rw [h1, h2]
    rfl
  rw [List.filter_append]
  have hfiltE : ([Eent].filter (fun p =>
      (entriesOld ++ [Eent]).any (fun o => (o.1 != p.1) && pairIntersects iso p.2 o.2))) = [] := by
    rw [List.filter_cons]
    rw [if_neg (by rw [hPE]; simp)]
    rfl
  rw [hfiltE, List.append_nil]
  have hfiltOld : (entriesOld.filter (fun p =>
      (entriesOld ++ [Eent]).any (fun o => (o.1 != p.1) && pairIntersects iso p.2 o.2)))
      = (entriesOld.filter (fun p =>
        entriesOld.any (fun o => (o.1 != p.1) && pairIntersects iso p.2 o.2))) := by
    apply List.filter_congr
    intro p hp
    rw [hPsame p hp]
  rw [hfiltOld]
  rw [hids, hentries]

end Answerability

namespace Answerability

theorem classifyBuckets_append (cfg : Config) (mi : List (String × List Metric))
    (q : Question) (confIds : List String) (l2 : List Event) :
    ∀ (l1 : List Event),
    classifyBuckets cfg mi q confIds (l1 ++ l2) =
      ((classifyBuckets cfg mi q confIds l1).1 ++ (classifyBuckets cfg mi q confIds l2).1,
       (classifyBuckets cfg mi q confIds l1).2.1 ++ (classifyBuckets cfg mi q confIds l2).2.1,
       (classifyBuckets cfg mi q confIds l1).2.2.1 ++ (classifyBuckets cfg mi q confIds l2).2.2.1,
       (classifyBuckets cfg mi q confIds l1).2.2.2 ++ (classifyBuckets cfg mi q confIds l2).2.2.2)
  | [] => by
    rw [List.nil_append]
    rfl
  | e :: l1 => by
    rw [List.cons_append]
    cases hc : classifyEvent cfg mi q confIds e with
    | confounded =>
      rw [classifyBuckets_cons_conf (l1 ++ l2) hc, classifyBuckets_cons_conf l1 hc,
        classifyBuckets_append cfg mi q confIds l2 l1]
    | missing =>
      rw [classifyBuckets_cons_missing (l1 ++ l2) hc, classifyBuckets_cons_missing l1 hc,
        classifyBuckets_append cfg mi q confIds l2 l1]
      simp
    | mismatch =>
      rw [classifyBuckets_cons_mismatch (l1 ++ l2) hc, classifyBuckets_cons_mismatch l1 hc,
        classifyBuckets_append cfg mi q confIds l2 l1]
      simp
    | lowq =>
      rw [classifyBuckets_cons_lowq (l1 ++ l2) hc, classifyBuckets_cons_lowq l1 hc,
        classifyBuckets_append cfg mi q confIds l2 l1]
      simp
    | usable =>
      rw [classifyBuckets_cons_usable (l1 ++ l2) hc, classifyBuckets_cons_usable l1 hc,
        classifyBuckets_append cfg mi q confIds l2 l1]
      simp

theorem mem_usable_mem_ids (cfg : Config) (mi : List (String × List Metric))
    (q : Question) (confIds : List String) (l : List Event) (i : String)
    (h : i ∈ (classifyBuckets cfg mi q confIds l).2.2.2) : i ∈ l.map (·.event_id) := by
  have hc := classify_count cfg mi q confIds l i
  rw [← countStr_pos_iff_mem] at h ⊢
  omega

theorem classifyEvent_usable_not_conf {cfg : Config} {mi : List (String × List Metric)}
    {q : Question} {confIds : List String} {e : Event}
    (h : classifyEvent cfg mi q confIds e = .usable) : e.event_id ∉ confIds := by
  intro hm
  rw [(classifyEvent_confounded_iff cfg mi q confIds e).mpr hm] at h
  exact Classification.noConfusion h

theorem evaluate_destruct (cfg : Config) (q : Question) (ed : EventsDoc) (md : MetricsDoc)
    (r : AnswerabilityResult) (hok : evaluate cfg q ed md = .ok r) :
    ∃ ss se inSpan expM compM confIds,
      parseTimeSpan q.time_span = .ok (ss, se) ∧
      filterExcept (fun e => eventInSpan cfg e ss se) ed.events = .ok inSpan ∧
      filterExcept (exposureFilter cfg q) inSpan = .ok expM ∧
      filterExcept (comparisonFilter cfg q) inSpan = .ok compM ∧
      findConfoundedEvents cfg inSpan cfg.min_isolation_minutes = .ok confIds ∧
      r = assembleResult cfg q ed md expM compM confIds := by
  rw [evaluate] at hok
  cases h1 : parseTimeSpan q.time_span with
  | error m => rw [h1, errBind] at hok; exact absurd hok (by simp)
  | ok sp =>
    obtain ⟨ss, se⟩ := sp
    rw [h1, okBind] at hok
    simp only [] at hok
    cases h2 : filterExcept (fun e => eventInSpan cfg e ss se) ed.events with
    | error m => rw [h2, errBind] at hok; exact absurd hok (by simp)
    | ok inSpan =>
      rw [h2, okBind] at hok
      cases h3 : filterExcept (exposureFilter cfg q) inSpan with
      | error m => rw [h3, errBind] at hok; exact absurd hok (by simp)
      | ok expM =>
        rw [h3, okBind] at hok
        cases h4 : filterExcept (comparisonFilter cfg q) inSpan with
        | error m => rw [h4, errBind] at hok; exact absurd hok (by simp)
        | ok compM =>
          rw [h4, okBind] at hok
          cases h5 : findConfoundedEvents cfg inSpan cfg.min_isolation_minutes with
          | error m => rw [h5, errBind] at hok; exact absurd hok (by simp)
          | ok confIds =>
            rw [h5, okBind] at hok
            exact ⟨ss, se, inSpan, expM, compM, confIds, rfl, h2, h3, h4, h5,
              (Except.ok.inj hok).symm⟩

theorem mem_if_singleton {P : Prop} [Decidable P] (c x : String) :
    (c ∈ (if P then [x] else [])) ↔ (P ∧ c = x) := by
  split_ifs with h
  · simp [h]
  · simp [h]

theorem codesOf_append (a b : List Reason) : codesOf (a ++ b) = codesOf a ++ codesOf b := by
  rw [codesOf, codesOf, codesOf, List.map_append]

theorem codesOf_groupReasons (cfg : Config) (g : String) (stats : GroupStats)
    (hm : stats.matched_event_ids ≠ []) :
    codesOf (groupReasons cfg g stats) =
      (if stats.confounded_event_ids ≠ [] then ["confounded_context"] else []) ++
      (if stats.window_mismatch_event_ids ≠ [] then ["metric_window_mismatch"] else []) ++
      (if stats.missing_metric_event_ids ≠ [] then
        [(if stats.metric_name = "baseline_glucose" then "missing_baseline"
          else "missing_metric")] else []) ++
      (if stats.low_quality_metric_event_ids ≠ [] then ["low_metric_coverage"] else []) ++
      (if stats.usable_event_ids.length < cfg.min_events_per_group then
        ["insufficient_repeats_" ++ g] else []) := by
  rw [groupReasons, if_neg hm]
  rw [codesOf_append, codesOf_append, codesOf_append, codesOf_append]
  simp only [codesOf, apply_ite (List.map (fun r : Reason => r.code)),
    List.map_cons, List.map_nil]
  rfl

theorem groupReasons_codes_mono (cfg : Config) (g : String) (stats : GroupStats)
    (Eid : String) (hm : stats.matched_event_ids ≠ []) :
    (∀ c ∈ codesOf (groupReasons cfg g
        { stats with matched_event_ids := stats.matched_event_ids ++ [Eid],
                     usable_event_ids := stats.usable_event_ids ++ [Eid] }),
      c ∈ codesOf (groupReasons cfg g stats)) ∧
    (∀ c ∈ codesOf (groupReasons cfg g stats),
      c ∉ codesOf (groupReasons cfg g
        { stats with matched_event_ids := stats.matched_event_ids ++ [Eid],
                     usable_event_ids := stats.usable_event_ids ++ [Eid] }) →
      c = "insufficient_repeats_" ++ g) := by
  have hm' : ({ stats with matched_event_ids := stats.matched_event_ids ++ [Eid],
                           usable_event_ids := stats.usable_event_ids ++ [Eid] }
      : GroupStats).matched_event_ids ≠ [] := by
    simp
  rw [codesOf_groupReasons cfg g _ hm', codesOf_groupReasons cfg g _ hm]
  simp only [List.length_append, List.length_singleton]
  constructor
  · intro c hc
    simp only [List.mem_append, mem_if_singleton] at hc ⊢
    rcases hc with ((((h | h) | h) | h) | h)
    · exact Or.inl (Or.inl (Or.inl (Or.inl h)))
    · exact Or.inl (Or.inl (Or.inl (Or.inr h)))
    · exact Or.inl (Or.inl (Or.inr h))
    · exact Or.inl (Or.inr h)
    · exact Or.inr ⟨by omega, h.2⟩
  · intro c hc hnc
    simp only [List.mem_append, mem_if_singleton] at hc hnc
    push_neg at hnc
    obtain ⟨⟨⟨⟨h1, h2⟩, h3⟩, h4⟩, _⟩ := hnc
    rcases hc with ((((h | h) | h) | h) | h)
    · exact absurd h.2 (h1 h.1)
    · exact absurd h.2 (h2 h.1)
    · exact absurd h.2 (h3 h.1)
    · exact absurd h.2 (h4 h.1)
    · exact h.2

theorem assembleResult_reasons (cfg : Config) (q : Question) (ed : EventsDoc)
    (md : MetricsDoc) (expM compM : List Event) (confIds : List String) :
    (assembleResult cfg q ed md expM compM confIds).reasons =
      subjectMismatchReasons q ed.subject_id md.subject_id
        ++ overlapReasonsOf expM compM
        ++ groupReasons cfg "exposure"
            (evaluateGroup cfg expM (indexMetrics md.metrics) q confIds)
        ++ groupReasons cfg "comparison"
            (evaluateGroup cfg compM (indexMetrics md.metrics) q confIds) := rfl

theorem overlapIdsOf_append_fresh (expM compM : List Event) (E : Event)
    (hfresh : E.event_id ∉ compM.map (·.event_id)) :
    overlapIdsOf (expM ++ [E]) compM = overlapIdsOf expM compM := by
  rw [overlapIdsOf, overlapIdsOf, List.map_append, List.filter_append]
  have h1 : (([E].map (·.event_id)).filter
      (fun i => i ∈ compM.map (·.event_id))) = [] := by
    simp only [List.map_cons, List.map_nil, List.filter_cons, List.filter_nil]
    rw [if_neg (by simpa using hfresh)]
  rw [h1, List.append_nil]

theorem overlapReasonsOf_append_fresh (expM compM : List Event) (E : Event)
    (hfresh : E.event_id ∉ compM.map (·.event_id)) :
    overlapReasonsOf (expM ++ [E]) compM = overlapReasonsOf expM compM := by
  rw [overlapReasonsOf, overlapReasonsOf, overlapIdsOf_append_fresh expM compM E hfresh]

theorem classifyBuckets_nil (cfg : Config) (mi : List (String × List Metric))
    (q : Question) (confIds : List String) :
    classifyBuckets cfg mi q confIds [] = ([], [], [], []) := by
  rw [classifyBuckets]

theorem evaluateGroup_append_usable (cfg : Config) (mi : List (String × List Metric))
    (q : Question) (confIds : List String) (expM : List Event) (E : Event)
    (hcE : classifyEvent cfg mi q confIds E = .usable) :
    evaluateGroup cfg (expM ++ [E]) mi q confIds =
      { evaluateGroup cfg expM mi q confIds with
        matched_event_ids :=
          (evaluateGroup cfg expM mi q confIds).matched_event_ids ++ [E.event_id],
        usable_event_ids :=
          (evaluateGroup cfg expM mi q confIds).usable_event_ids ++ [E.event_id] } := by
  have hnc : E.event_id ∉ confIds := classifyEvent_usable_not_conf hcE
  rw [evaluateGroup_eq, evaluateGroup_eq]
  rw [classifyBuckets_append cfg mi q confIds [E] expM]
  rw [classifyBuckets_cons_usable [] hcE, classifyBuckets_nil]
  simp [hnc]

theorem filterExcept_append_destruct {α : Type} (f : α → Except String Bool) :
    ∀ (l1 l2 m : List α), filterExcept f (l1 ++ l2) = .ok m →
    ∃ a b, filterExcept f l1 = .ok a ∧ filterExcept f l2 = .ok b ∧ m = a ++ b
  | [], l2, m, h => ⟨[], m, rfl, by rwa [List.nil_append] at h, rfl⟩
  | x :: xs, l2, m, h => by
    rw [List.cons_append, filterExcept] at h
    cases hfx : f x with
    | error msg => rw [hfx, errBind] at h; exact absurd h (by simp)
    | ok bx =>
      rw [hfx, okBind] at h
      cases hrest : filterExcept f (xs ++ l2) with
      | error msg => rw [hrest, errBind] at h; exact absurd h (by simp)
      | ok rest =>
        rw [hrest, okBind] at h
        obtain ⟨a2, b2, ha, hb, hab⟩ := filterExcept_append_destruct f xs l2 rest hrest
        cases bx with
        | false =>
          refine ⟨a2, b2, ?_, hb, ?_⟩
          · rw [filterExcept, hfx, okBind, ha, okBind]
            simp
          · rw [← Except.ok.inj h]
            simpa using hab
        | true =>
          refine ⟨x :: a2, b2, ?_, hb, ?_⟩
          · rw [filterExcept, hfx, okBind, ha, okBind]
            simp
          · rw [← Except.ok.inj h]
            simp [hab]

theorem filterExcept_single_destruct {α : Type} (f : α → Except String Bool) (x : α)
    (m : List α) (h : filterExcept f [x] = .ok m) :
    ∃ bx, f x = .ok bx ∧ m = (if bx then [x] else []) := by
  rw [filterExcept] at h
  cases hfx : f x with
  | error msg => rw [hfx, errBind] at h; exact absurd h (by simp)
  | ok bx =>
    rw [hfx, okBind] at h
    rw [filterExcept, okBind] at h
    exact ⟨bx, rfl, (Except.ok.inj h).symm⟩

theorem filterExcept_single_false {α : Type} (f : α → Except String Bool) (x : α)
    (h : f x = .ok false) : filterExcept f [x] = .ok [] := by
  rw [filterExcept, h, okBind, filterExcept, okBind]
  simp

theorem assembleResult_exposure_stats (cfg : Config) (q : Question) (ed : EventsDoc)
    (md : MetricsDoc) (expM compM : List Event) (confIds : List String) :
    (assembleResult cfg q ed md expM compM confIds).exposure_stats =
      evaluateGroup cfg expM (indexMetrics md.metrics) q confIds := rfl

theorem evaluateGroup_usable (cfg : Config) (events : List Event)
    (mi : List (String × List Metric)) (q : Question) (confIds : List String) :
    (evaluateGroup cfg events mi q confIds).usable_event_ids =
      (classifyBuckets cfg mi q confIds events).2.2.2 := rfl

theorem mem_usable_append_single (cfg : Config) (mi : List (String × List Metric))
    (q : Question) (confIds : List String) (l : List Event) (E : Event) (i : String)
    (h : i ∈ (classifyBuckets cfg mi q confIds (l ++ [E])).2.2.2) :
    i ∈ (classifyBuckets cfg mi q confIds l).2.2.2 ∨
      (classifyEvent cfg mi q confIds E = .usable ∧ i = E.event_id) := by
  rw [classifyBuckets_append cfg mi q confIds [E] l] at h
  simp only [] at h
  rcases List.mem_append.mp h with h1 | h1
  · exact Or.inl h1
  · cases hc : classifyEvent cfg mi q confIds E with
    | confounded =>
      rw [classifyBuckets_cons_conf [] hc, classifyBuckets_nil] at h1
      exact absurd h1 (List.not_mem_nil i)
    | missing =>
      rw [classifyBuckets_cons_missing [] hc, classifyBuckets_nil] at h1
      simp at h1
    | mismatch =>
      rw [classifyBuckets_cons_mismatch [] hc, classifyBuckets_nil] at h1
      simp at h1
    | lowq =>
      rw [classifyBuckets_cons_lowq [] hc, classifyBuckets_nil] at h1
      simp at h1
    | usable =>
      rw [classifyBuckets_cons_usable [] hc, classifyBuckets_nil] at h1
      simp only [List.mem_singleton] at h1
      exact Or.inr ⟨rfl, h1⟩

/-- C9 (amended): monotonicity in the positive direction holds once the
exposure group already has at least one matched event: appending a fresh,
matching, usable, isolated event to the events document can only remove
reason codes, and any removed code is `insufficient_repeats_exposure`. -/
theorem C9_monotonicity (cfg : Config) (q : Question) (ed : EventsDoc) (md : MetricsDoc)
    (E : Event) (r r' : AnswerabilityResult)
    (hok : evaluate cfg q ed md = .ok r)
    (hok' : evaluate cfg q { subject_id := ed.subject_id, events := ed.events ++ [E] } md
      = .ok r')
    (hfresh : E.event_id ∉ ed.events.map (·.event_id))
    (hnodup : (ed.events.map (·.event_id)).Nodup)
    (hexp : exposureFilter cfg q E = .ok true)
    (hcomp : comparisonFilter cfg q E = .ok false)
    (hmatched : r.exposure_stats.matched_event_ids ≠ [])
    (husable : E.event_id ∈ r'.exposure_stats.usable_event_ids)
    (hiso : ∀ A ∈ ed.events,
      pairIntersects cfg.min_isolation_minutes (parsedTimes cfg E) (parsedTimes cfg A)
        = false) :
    (∀ c ∈ codesOf r'.reasons, c ∈ codesOf r.reasons) ∧
    (∀ c ∈ codesOf r.reasons, c ∉ codesOf r'.reasons →
      c = "insufficient_repeats_exposure") := by
  obtain ⟨ss, se, inSpan, expM, compM, confIds, hsp, hins, hexpM, hcompM, hconf, hr⟩ :=
    evaluate_destruct cfg q ed md r hok
  obtain ⟨ss', se', inSpan', expM', compM', confIds', hsp', hins', hexpM', hcompM',
    hconf', hr'⟩ := evaluate_destruct cfg q _ md r' hok'
  rw [hsp] at hsp'
  have hpair := Except.ok.inj hsp'
  rw [Prod.mk.injEq] at hpair
  obtain ⟨rfl, rfl⟩ := hpair
  have hsubIn : inSpan.Sublist ed.events := filterExcept_sublist _ _ _ hins
  have hmapsub : (inSpan.map (·.event_id)).Sublist (ed.events.map (·.event_id)) :=
    hsubIn.map _
  have hEnotIn : E.event_id ∉ inSpan.map (·.event_id) :=
    fun hmem => hfresh (hmapsub.subset hmem)
  have hsubExp : expM.Sublist inSpan := filterExcept_sublist _ _ _ hexpM
  have hsubComp : compM.Sublist inSpan := filterExcept_sublist _ _ _ hcompM
  have hEnotComp : E.event_id ∉ compM.map (·.event_id) :=
    fun hmem => hEnotIn ((hsubComp.map _).subset hmem)
  obtain ⟨a, b, ha, hbE, hab⟩ := filterExcept_append_destruct _ _ _ _ hins'
  rw [hins] at ha
  obtain rfl : inSpan = a := Except.ok.inj ha
  obtain ⟨bx, hfE, hbval⟩ := filterExcept_single_destruct _ _ _ hbE
  cases bx with
  | false =>
    rw [hbval] at hab
    simp only [Bool.false_eq_true, if_false, List.append_nil] at hab
    subst hab
    rw [hexpM] at hexpM'
    obtain rfl : expM = expM' := Except.ok.inj hexpM'
    rw [hr', assembleResult_exposure_stats, evaluateGroup_usable] at husable
    have hidmem := mem_usable_mem_ids cfg (indexMetrics md.metrics) q confIds' expM
      E.event_id husable
    exact absurd ((hsubExp.map _).subset hidmem) hEnotIn
  | true =>
    rw [hbval] at hab
    simp only [if_true] at hab
    subst hab
    have hexpM2 : filterExcept (exposureFilter cfg q) (inSpan ++ [E])
        = .ok (expM ++ [E]) :=
      filterExcept_append_ok _ _ _ _ _ hexpM (filterExcept_single_true _ _ hexp)
    rw [hexpM2] at hexpM'
    obtain rfl : expM ++ [E] = expM' := Except.ok.inj hexpM'
    have hcompM2 : filterExcept (comparisonFilter cfg q) (inSpan ++ [E])
        = .ok (compM ++ []) :=
      filterExcept_append_ok _ _ _ _ _ hcompM (filterExcept_single_false _ _ hcomp)
    rw [List.append_nil] at hcompM2
    rw [hcompM2] at hcompM'
    obtain rfl : compM = compM' := Except.ok.inj hcompM'
    have hnodup2 : ((inSpan ++ [E]).map (·.event_id)).Nodup := by
      rw [List.map_append, List.nodup_append]
      refine ⟨hnodup.sublist hmapsub, List.nodup_singleton _, ?_⟩
      intro a2 ha2 hb2
      simp only [List.map_cons, List.map_nil, List.mem_singleton] at hb2
      exact hEnotIn (hb2 ▸ ha2)
    obtain ⟨entries, hbuild, _⟩ :=
      findConfounded_destruct cfg (inSpan ++ [E]) cfg.min_isolation_minutes confIds' hconf'
    have hEpt : ∃ t, parseEventTimes cfg E = .ok t :=
      buildEventTimes_elem_ok cfg (inSpan ++ [E]) [] entries hbuild E
        (List.mem_append_right _ (List.mem_singleton_self E))
    have hconf2 : findConfoundedEvents cfg (inSpan ++ [E]) cfg.min_isolation_minutes
        = .ok confIds :=
      findConfounded_append_single cfg cfg.min_isolation_minutes inSpan E confIds hconf
        hnodup2 hEpt (fun A hA => hiso A (hsubIn.subset hA))
    rw [hconf2] at hconf'
    obtain rfl : confIds = confIds' := Except.ok.inj hconf'
    have hclass : classifyEvent cfg (indexMetrics md.metrics) q confIds E = .usable := by
      rw [hr', assembleResult_exposure_stats, evaluateGroup_usable] at husable
      rcases mem_usable_append_single cfg (indexMetrics md.metrics) q confIds expM E
          E.event_id husable with h1 | h1
      · have hidmem := mem_usable_mem_ids cfg (indexMetrics md.metrics) q confIds expM
          E.event_id h1
        exact absurd ((hsubExp.map _).subset hidmem) hEnotIn
      · exact h1.1
    have hstats := evaluateGroup_append_usable cfg (indexMetrics md.metrics) q confIds
      expM E hclass
    have hmatchedStats :
        (evaluateGroup cfg expM (indexMetrics md.metrics) q confIds).matched_event_ids
          ≠ [] := by
      rw [hr, assembleResult_exposure_stats] at hmatched
      exact hmatched
    obtain ⟨hmono1, hmono2⟩ := groupReasons_codes_mono cfg "exposure"
      (evaluateGroup cfg expM (indexMetrics md.metrics) q confIds) E.event_id hmatchedStats
    have hreasons : codesOf r.reasons =
        codesOf (subjectMismatchReasons q ed.subject_id md.subject_id)
          ++ codesOf (overlapReasonsOf expM compM)
          ++ codesOf (groupReasons cfg "exposure"
              (evaluateGroup cfg expM (indexMetrics md.metrics) q confIds))
          ++ codesOf (groupReasons cfg "comparison"
              (evaluateGroup cfg compM (indexMetrics md.metrics) q confIds)) := by
      rw [hr, assembleResult_reasons, codesOf_append, codesOf_append, codesOf_append]
    have hreasons' : codesOf r'.reasons =
        codesOf (subjectMismatchReasons q ed.subject_id md.subject_id)
          ++ codesOf (overlapReasonsOf expM compM)
          ++ codesOf (groupReasons cfg "exposure"
              { evaluateGroup cfg expM (indexMetrics md.metrics) q confIds with
                matched_event_ids :=
                  (evaluateGroup cfg expM (indexMetrics md.metrics) q
                    confIds).matched_event_ids ++ [E.event_id],
                usable_event_ids :=
                  (evaluateGroup cfg expM (indexMetrics md.metrics) q
                    confIds).usable_event_ids ++ [E.event_id] })
          ++ codesOf (groupReasons cfg "comparison"
              (evaluateGroup cfg compM (indexMetrics md.metrics) q confIds)) := by
      rw [hr', assembleResult_reasons, codesOf_append, codesOf_append, codesOf_append,
        overlapReasonsOf_append_fresh expM compM E hEnotComp, hstats]
    constructor
    · intro c hc
      rw [hreasons'] at hc
      rw [hreasons]
      rcases List.mem_append.mp hc with h | h
      · rcases List.mem_append.mp h with h2 | h2
        · exact List.mem_append_left _ (List.mem_append_left _ h2)
        · exact List.mem_append_left _ (List.mem_append_right _ (hmono1 c h2))
      · exact List.mem_append_right _ h
    · intro c hc hnc
      rw [hreasons] at hc
      rw [hreasons'] at hnc
      rcases List.mem_append.mp hc with h | h
      · rcases List.mem_append.mp h with h2 | h2
        · exact absurd (List.mem_append_left _ (List.mem_append_left _ h2)) hnc
        · exact hmono2 c h2 (fun hmem =>
            hnc (List.mem_append_left _ (List.mem_append_right _ hmem)))
      · exact absurd (List.mem_append_right _ h) hnc

/-- C9 counterexample to the original claim: on a document whose exposure
group has no matching events, `evaluate` reports only
`no_matching_exposure_events`; adding one matching, usable, isolated
exposure event replaces it with `insufficient_repeats_exposure` — a reason
code absent from the original result. -/
theorem C9_counterexample :
    resultCodes (evaluate defaultConfig q9 ed9 md9)
      = .ok ["no_matching_exposure_events"] ∧
    resultCodes (evaluate defaultConfig q9 ed9x md9)
      = .ok ["insufficient_repeats_exposure"] ∧
    resultUsableExposure (evaluate defaultConfig q9 ed9x md9) = .ok ["x1"] :=
  ⟨by decide, by decide, by decide⟩

/-- C9 witness: with `min_events_per_group = 3`, appending the usable
matching event `evX2` keeps the surviving `insufficient_repeats_exposure`
code inside the original result's codes. -/
theorem C9_monotonicity_witness :
    "insufficient_repeats_exposure" ∈ codesOf r9B.reasons ∧
    "insufficient_repeats_exposure" ∈ codesOf r9A.reasons :=
  ⟨by decide,
   (C9_monotonicity cfg9 q9 ed9x md9 evX2 r9A r9B rfl rfl (by decide) (by decide)
      (by decide) (by decide) (by decide) (by decide) (by decide)).1
     "insufficient_repeats_exposure" (by decide)⟩

end Answerability
